import Mathlib

/-!
# SdhcDxe: command / response engine of the BCM2836 SD host driver

A shallow embedding of `Pi3BoardPkg/Drivers/SdhcDxe/SdhcDxe.c`: command
dispatch and completion, response decoding, block transfer, software reset,
bus width and clock; of the two field encoders of
`MsPkg/Application/RpmbResetTest/RpmbResetTest.c`; and of the sample adder of
`MsPkg/Application/EdkTestSample/EdkTestSample.c`.

* The register window is a device model `Device σ`: a read may return any value
  and may change the device, a write and a stall change the device.
* Every register access, stall and activity-indicator call is appended to a
  chronological trace, so that statements about the order and number of
  accesses are statements about lists.
* The bit masks of `Bcm2836SdHost.h` are not part of the sources at hand; they
  are the fields of `SdHostBits` and every theorem is stated for an arbitrary
  assignment of them.
* `UINT32` values are natural numbers; a register read is reduced modulo
  `2 ^ 32`, and arithmetic that can wrap is reduced explicitly.
* `MailboxProperty` and `LedSetOk` are collaborators outside the register
  window: the first is a parameter, the second an event of the trace.
* `ASSERT` and `LOG_ASSERT` are taken as in a build in which they do not stop
  execution; log output is not modelled, the register reads of `DumpState`
  are.
-/

namespace SdhcDxe

/-! ## Data model -/

/-- The `EFI_STATUS` values the driver produces. -/
inductive EFI_STATUS where
  | EFI_SUCCESS
  | EFI_INVALID_PARAMETER
  | EFI_DEVICE_ERROR
  | EFI_TIMEOUT
  | EFI_OUT_OF_RESOURCES
  deriving DecidableEq, Repr

open EFI_STATUS

/-- The macro `EFI_ERROR`: true for every status with the error bit, that is
for every value of `EFI_STATUS` above except success. -/
def EFI_ERROR (Status : EFI_STATUS) : Bool :=
  decide (Status ≠ EFI_SUCCESS)

/-- The registers of the SD host window (`SDHOST_CMD`, `SDHOST_ARG`, ...). -/
inductive Reg where
  | CMD | ARG | TOUT | CDIV | RSP0 | RSP1 | RSP2 | RSP3
  | HSTS | VDD | EDM | HCFG | HBCT | DATA | HBLC
  deriving DecidableEq, Repr

/-- One observable action of the driver. -/
inductive Event where
  | read (r : Reg) (v : Nat)
  | write (r : Reg) (v : Nat)
  | stall (us : Nat)
  | led (lit : Bool)
  deriving DecidableEq, Repr

/-- Whether the event is a register write. -/
def Event.isWrite : Event → Bool
  | .write _ _ => true
  | _ => false

/-- Whether the event is a write to register `r`. -/
def Event.writesTo (r : Reg) : Event → Bool
  | .write r' _ => decide (r' = r)
  | _ => false

/-- Whether the event is a read of register `r`. -/
def Event.readsFrom (r : Reg) : Event → Bool
  | .read r' _ => decide (r' = r)
  | _ => false

/-- The durations of the stalls of a trace, in order. -/
def stalls : List Event → List Nat
  | [] => []
  | .stall us :: t => us :: stalls t
  | _ :: t => stalls t

/-- The number of reads of register `r` in a trace. -/
def readCount (r : Reg) (t : List Event) : Nat :=
  t.countP (Event.readsFrom r)

/-- The hardware behind the register window. -/
structure Device (σ : Type) where
  read : Reg → σ → Nat × σ
  write : Reg → Nat → σ → σ
  stall : Nat → σ → σ

/-- The value a read of `r` returns in device state `s`, as a `UINT32`. -/
def Device.sample {σ : Type} (D : Device σ) (r : Reg) (s : σ) : Nat :=
  (D.read r s).1 % 4294967296

/-- The device state together with the trace of what the driver did so far. -/
structure World (σ : Type) where
  dev : σ
  trace : List Event

/-- The bit masks of `Bcm2836SdHost.h` used by the engine, and whether the
register dump of `DumpState` is compiled in and enabled in the build. -/
structure SdHostBits where
  SDHOST_CMD_NEW_FLAG : Nat
  SDHOST_CMD_FAIL_FLAG : Nat
  SDHOST_CMD_BUSY_CMD : Nat
  SDHOST_CMD_RESPONSE_CMD_NO_RESP : Nat
  SDHOST_CMD_RESPONSE_CMD_LONG_RESP : Nat
  SDHOST_CMD_READ_CMD : Nat
  SDHOST_CMD_WRITE_CMD : Nat
  SDHOST_HSTS_DATA_FLAG : Nat
  SDHOST_HSTS_ERROR : Nat
  SDHOST_HSTS_TIMOUT_ERROR : Nat
  SDHOST_HSTS_CRC7_ERROR : Nat
  SDHOST_HSTS_CLEAR : Nat
  SDHOST_HCFG_WIDE_EXT_BUS : Nat
  SDHOST_HCFG_WIDE_INT_BUS : Nat
  SDHOST_HCFG_SLOW_CARD : Nat
  SDHOST_EDM_FIFO_CLEAR : Nat
  DebugDump : Bool

/-- The response type of a command. `Unknown` stands for every value of the C
enumeration that none of the `case` labels of the driver names. -/
inductive SD_RESPONSE_TYPE where
  | SdResponseTypeNone
  | SdResponseTypeR1
  | SdResponseTypeR1B
  | SdResponseTypeR2
  | SdResponseTypeR3
  | SdResponseTypeR4
  | SdResponseTypeR5
  | SdResponseTypeR5B
  | SdResponseTypeR6
  | Unknown (raw : Nat)
  deriving DecidableEq, Repr

/-- The transfer direction of a command. `Undefined` stands for every value
other than read and write. -/
inductive SD_TRANSFER_DIRECTION where
  | SdTransferDirectionRead
  | SdTransferDirectionWrite
  | Undefined (raw : Nat)
  deriving DecidableEq, Repr

open SD_RESPONSE_TYPE SD_TRANSFER_DIRECTION

/-- The fields of `SD_COMMAND` that the engine reads. The field `Class` only
selects a character of the log messages and is left out. -/
structure SD_COMMAND where
  Index : Nat
  ResponseType : SD_RESPONSE_TYPE
  TransferDirection : SD_TRANSFER_DIRECTION

/-- The field of `SD_COMMAND_XFR_INFO` that the engine reads. -/
structure SD_COMMAND_XFR_INFO where
  BlockCount : Nat

def USDHC_MAX_BLOCK_COUNT : Nat := 0xFFFF

def USDHC_POLL_RETRY_COUNT : Nat := 1000000

def USDHC_POLL_WAIT_US : Nat := 20

def STALL_TO_STABILIZE_US : Nat := 10000

def USDHC_BLOCK_LENGTH_BYTES : Nat := 512

/-! ## Register access shim -/

variable {σ : Type}

/-- `MmioRead32`: the value read and the world after the read. -/
def MmioRead32 (D : Device σ) (r : Reg) (w : World σ) : Nat × World σ :=
  (D.sample r w.dev, ⟨(D.read r w.dev).2, w.trace ++ [Event.read r (D.sample r w.dev)]⟩)

/-- `MmioWrite32`. -/
def MmioWrite32 (D : Device σ) (r : Reg) (v : Nat) (w : World σ) : World σ :=
  ⟨D.write r v w.dev, w.trace ++ [Event.write r v]⟩

/-- `gBS->Stall`. -/
def Stall (D : Device σ) (us : Nat) (w : World σ) : World σ :=
  ⟨D.stall us w.dev, w.trace ++ [Event.stall us]⟩

/-- `LedSetOk`: the activity indicator is not part of the register window; the
call is recorded in the trace and leaves the device alone. -/
def LedSetOk (lit : Bool) (w : World σ) : World σ :=
  ⟨w.dev, w.trace ++ [Event.led lit]⟩

/-- `MmioOr32`: a read followed by a write of the value read or-ed with
`OrData`. -/
def MmioOr32 (D : Device σ) (r : Reg) (OrData : Nat) (w : World σ) : World σ :=
  let v := MmioRead32 D r w
  MmioWrite32 D r (v.1 ||| OrData) v.2

/-- The operator `~` on a `UINT32`. -/
def not32 (x : Nat) : Nat := 4294967295 - x % 4294967296

/-- The registers `DumpState` reads, in the order of its log lines. -/
def dumpRegs : List Reg :=
  [.CMD, .ARG, .TOUT, .CDIV, .RSP0, .RSP1, .RSP2, .RSP3, .HSTS, .VDD, .EDM, .HCFG,
   .HBCT, .DATA, .HBLC]

/-- `DumpState`: between `DEBUG_CODE_BEGIN` and `DEBUG_CODE_END`, reads every
register once for the log (`NO_DETAIL` is 0, so the early return is dead). -/
def DumpState (D : Device σ) (L : SdHostBits) (w : World σ) : World σ :=
  if L.DebugDump then dumpRegs.foldl (fun w r => (MmioRead32 D r w).2) w else w

/-! ## Polling -/

/-- The state of a poll of the command register when its loop ends. -/
structure CmdPoll (σ : Type) where
  Retry : Nat
  CmdReg : Nat
  world : World σ

/-- The loop
`while ((CmdReg & SDHOST_CMD_NEW_FLAG) && Retry) { Stall; --Retry; CmdReg = read CMD; }`
of `WaitForCmd` and `WaitForCmdResponse`. -/
def cmdPollLoop (D : Device σ) (L : SdHostBits) : Nat → Nat → World σ → CmdPoll σ
  | 0, CmdReg, w => ⟨0, CmdReg, w⟩
  | Retry + 1, CmdReg, w =>
    if CmdReg &&& L.SDHOST_CMD_NEW_FLAG ≠ 0 then
      let w1 := Stall D USDHC_POLL_WAIT_US w
      let r := MmioRead32 D .CMD w1
      cmdPollLoop D L Retry r.1 r.2
    else ⟨Retry + 1, CmdReg, w⟩

/-- The first read of the command register followed by the poll loop, with the
budget `USDHC_POLL_RETRY_COUNT`: the common head of `WaitForCmd` and
`WaitForCmdResponse`. -/
def awaitCmd (D : Device σ) (L : SdHostBits) (w : World σ) : CmdPoll σ :=
  let r := MmioRead32 D .CMD w
  cmdPollLoop D L USDHC_POLL_RETRY_COUNT r.1 r.2

/-- `WaitForCmd`. -/
def WaitForCmd (D : Device σ) (L : SdHostBits) (w : World σ) : EFI_STATUS × World σ :=
  let p := awaitCmd D L w
  if p.CmdReg &&& L.SDHOST_CMD_NEW_FLAG ≠ 0 then (EFI_DEVICE_ERROR, p.world)
  else (EFI_SUCCESS, p.world)

/-- The loop
`while ((read HSTS & SDHOST_HSTS_DATA_FLAG) && Retry) { read DATA; Stall; --Retry; }`
of `FlushReadFifo`; the status register is read also when `Retry` is 0. -/
def flushLoop (D : Device σ) (L : SdHostBits) : Nat → World σ → Nat × World σ
  | 0, w => (0, (MmioRead32 D .HSTS w).2)
  | Retry + 1, w =>
    let h := MmioRead32 D .HSTS w
    if h.1 &&& L.SDHOST_HSTS_DATA_FLAG ≠ 0 then
      let d := MmioRead32 D .DATA h.2
      let w2 := Stall D USDHC_POLL_WAIT_US d.2
      flushLoop D L Retry w2
    else (Retry + 1, h.2)

/-- `FlushReadFifo`. -/
def FlushReadFifo (D : Device σ) (L : SdHostBits) (w : World σ) : EFI_STATUS × World σ :=
  let r := flushLoop D L USDHC_POLL_RETRY_COUNT w
  if r.1 = 0 then (EFI_TIMEOUT, r.2) else (EFI_SUCCESS, r.2)

/-- `WaitForCmdResponse`. -/
def WaitForCmdResponse (D : Device σ) (L : SdHostBits) (Cmd : SD_COMMAND) (Argument : Nat)
    (w : World σ) : EFI_STATUS × World σ :=
  let p := awaitCmd D L w
  let h := MmioRead32 D .HSTS p.world
  let StsReg := h.1 &&& L.SDHOST_HSTS_ERROR
  let Status := EFI_SUCCESS
  let Status := if p.Retry = 0 then EFI_TIMEOUT else Status
  let Status :=
    if p.CmdReg &&& L.SDHOST_CMD_FAIL_FLAG ≠ 0 then
      let Status := EFI_DEVICE_ERROR
      let Status := if StsReg &&& L.SDHOST_HSTS_TIMOUT_ERROR ≠ 0 then EFI_TIMEOUT else Status
      let Status := if StsReg = L.SDHOST_HSTS_CRC7_ERROR then EFI_SUCCESS else Status
      Status
    else Status
  let Status := if Cmd.Index = 7 ∧ Argument = 0 then EFI_SUCCESS else Status
  let w1 :=
    if Status ≠ EFI_SUCCESS then
      if Status = EFI_TIMEOUT ∧ (Cmd.Index = 1 ∨ Cmd.Index = 5 ∨ Cmd.Index = 8) then h.2
      else DumpState D L h.2
    else h.2
  let w2 := if Status ≠ EFI_SUCCESS then DumpState D L w1 else w1
  (Status, MmioWrite32 D .HSTS L.SDHOST_HSTS_CLEAR w2)

/-! ## Command dispatch -/

/-- `SdhcSendCommand`. The status of `FlushReadFifo` is assigned to `Status`
and overwritten by the status of `WaitForCmdResponse`. -/
def SdhcSendCommand (D : Device σ) (L : SdHostBits) (Cmd : SD_COMMAND) (Argument : Nat)
    (XfrInfo : Option SD_COMMAND_XFR_INFO) (w : World σ) : EFI_STATUS × World σ :=
  let r0 := WaitForCmd D L w
  if r0.1 ≠ EFI_SUCCESS then (r0.1, r0.2)
  else
    let w1 := MmioWrite32 D .HSTS L.SDHOST_HSTS_CLEAR r0.2
    let CmdReg := Cmd.Index ||| L.SDHOST_CMD_NEW_FLAG
    let tooMany : Bool :=
      match XfrInfo with
      | some x => decide (x.BlockCount > USDHC_MAX_BLOCK_COUNT)
      | none => false
    if tooMany then (EFI_INVALID_PARAMETER, w1)
    else
      let sw : Option Nat :=
        match Cmd.ResponseType with
        | SdResponseTypeNone => some (CmdReg ||| L.SDHOST_CMD_RESPONSE_CMD_NO_RESP)
        | SdResponseTypeR1 => some CmdReg
        | SdResponseTypeR3 => some CmdReg
        | SdResponseTypeR4 => some CmdReg
        | SdResponseTypeR5 => some CmdReg
        | SdResponseTypeR6 => some CmdReg
        | SdResponseTypeR5B => some CmdReg
        | SdResponseTypeR1B => some (CmdReg ||| L.SDHOST_CMD_BUSY_CMD)
        | SdResponseTypeR2 => some (CmdReg ||| L.SDHOST_CMD_RESPONSE_CMD_LONG_RESP)
        | Unknown _ => none
      match sw with
      | none => (EFI_INVALID_PARAMETER, w1)
      | some CmdReg =>
        let rd : Nat × World σ :=
          if Cmd.TransferDirection = SdTransferDirectionRead then
            (CmdReg ||| L.SDHOST_CMD_READ_CMD, (FlushReadFifo D L w1).2)
          else (CmdReg, w1)
        let CmdReg :=
          if Cmd.TransferDirection = SdTransferDirectionWrite then
            rd.1 ||| L.SDHOST_CMD_WRITE_CMD
          else rd.1
        let w3 := MmioWrite32 D .HSTS L.SDHOST_HSTS_CLEAR rd.2
        let w4 := MmioWrite32 D .ARG Argument w3
        let w5 := MmioWrite32 D .CMD CmdReg w4
        let r := WaitForCmdResponse D L Cmd Argument w5
        if EFI_ERROR r.1 then (r.1, r.2) else (EFI_SUCCESS, r.2)

/-! ## Response decoding -/

/-- Caller memory seen from the pointer `Buffer`: byte offset to byte value. -/
abbrev Mem := Nat → Nat

/-- `Buffer[idx] = v` for a `UINT32 *Buffer` on a little-endian machine. -/
def storeWord (Buffer : Mem) (idx : Nat) (v : Nat) : Mem :=
  fun a => if 4 * idx ≤ a ∧ a < 4 * idx + 4 then (v / 256 ^ (a - 4 * idx)) % 256 else Buffer a

/-- The value of `Buffer[idx]` for a `UINT32 *Buffer` on a little-endian machine. -/
def loadWord (Buffer : Mem) (idx : Nat) : Nat :=
  Buffer (4 * idx) % 256 + 256 * (Buffer (4 * idx + 1) % 256)
    + 65536 * (Buffer (4 * idx + 2) % 256) + 16777216 * (Buffer (4 * idx + 3) % 256)

/-- `BufferAsBytes[i] = v` for a `UINT8 *BufferAsBytes`. -/
def storeByte (Buffer : Mem) (i : Nat) (v : Nat) : Mem :=
  fun a => if a = i then v % 256 else Buffer a

/-- The loop
`for (ByteIdx = 0; ByteIdx < BufferSizeMax - 1; ++ByteIdx) B[ByteIdx] = B[ByteIdx + 1];`
started at `ByteIdx` with `fuel` iterations left. -/
def shiftLoop : Nat → Nat → Mem → Mem
  | 0, _, Buffer => Buffer
  | fuel + 1, ByteIdx, Buffer =>
    shiftLoop fuel (ByteIdx + 1) (storeByte Buffer ByteIdx (Buffer (ByteIdx + 1)))

/-- `SdhcReceiveResponse`; `Buffer = none` is the null pointer. The result
holds the caller memory after the call. -/
def SdhcReceiveResponse (D : Device σ) (Cmd : SD_COMMAND) (Buffer : Option Mem)
    (w : World σ) : EFI_STATUS × Option Mem × World σ :=
  match Buffer with
  | none => (EFI_INVALID_PARAMETER, none, w)
  | some Buffer =>
    let short : EFI_STATUS × Option Mem × World σ :=
      let r := MmioRead32 D .RSP0 w
      (EFI_SUCCESS, some (storeWord Buffer 0 r.1), r.2)
    match Cmd.ResponseType with
    | SdResponseTypeNone => (EFI_SUCCESS, some Buffer, w)
    | SdResponseTypeR1 => short
    | SdResponseTypeR1B => short
    | SdResponseTypeR3 => short
    | SdResponseTypeR4 => short
    | SdResponseTypeR5 => short
    | SdResponseTypeR5B => short
    | SdResponseTypeR6 => short
    | SdResponseTypeR2 =>
      let r0 := MmioRead32 D .RSP0 w
      let Buffer := storeWord Buffer 0 r0.1
      let r1 := MmioRead32 D .RSP1 r0.2
      let Buffer := storeWord Buffer 1 r1.1
      let r2 := MmioRead32 D .RSP2 r1.2
      let Buffer := storeWord Buffer 2 r2.1
      let r3 := MmioRead32 D .RSP3 r2.2
      let Buffer := storeWord Buffer 3 r3.1
      let BufferSizeMax := 4 * 4
      let Buffer := shiftLoop (BufferSizeMax - 1) 0 Buffer
      let Buffer := storeByte Buffer (BufferSizeMax - 1) 0
      (EFI_SUCCESS, some Buffer, r3.2)
    | Unknown _ => (EFI_INVALID_PARAMETER, some Buffer, w)

/-! ## Block data transfer

The `ASSERT`s on the buffer pointer and on the length are preconditions of the
caller and are not part of the control flow modelled here. -/

/-- The loop
`while (PollCount < USDHC_POLL_RETRY_COUNT) { if (read HSTS & DATA_FLAG) { Buffer[WordIdx] = read DATA; break; } ++PollCount; }`
of `SdhcReadBlockData`; `fuel` is `USDHC_POLL_RETRY_COUNT - PollCount`, the
number of polls the loop condition still allows. The result holds the final
`PollCount`. -/
def readWordLoop (D : Device σ) (L : SdHostBits) (WordIdx : Nat) :
    Nat → Nat → Mem → World σ → Nat × Mem × World σ
  | 0, PollCount, Buffer, w => (PollCount, Buffer, w)
  | fuel + 1, PollCount, Buffer, w =>
    let h := MmioRead32 D .HSTS w
    if h.1 &&& L.SDHOST_HSTS_DATA_FLAG ≠ 0 then
      let d := MmioRead32 D .DATA h.2
      (PollCount, storeWord Buffer WordIdx d.1, d.2)
    else readWordLoop D L WordIdx fuel (PollCount + 1) Buffer h.2

/-- The loop `for (WordIdx = ...; WordIdx < NumWords; ++WordIdx)` of
`SdhcReadBlockData` with `n = NumWords - WordIdx` words to go. -/
def readWords (D : Device σ) (L : SdHostBits) :
    Nat → Nat → Mem → World σ → EFI_STATUS × Mem × World σ
  | 0, _, Buffer, w => (EFI_SUCCESS, Buffer, w)
  | n + 1, WordIdx, Buffer, w =>
    let r := readWordLoop D L WordIdx USDHC_POLL_RETRY_COUNT 0 Buffer w
    if r.1 = USDHC_POLL_RETRY_COUNT then
      (EFI_TIMEOUT, r.2.1, MmioWrite32 D .HSTS L.SDHOST_HSTS_CLEAR r.2.2)
    else readWords D L n (WordIdx + 1) r.2.1 r.2.2

/-- `SdhcReadBlockData`; the result holds the caller memory after the call. -/
def SdhcReadBlockData (D : Device σ) (L : SdHostBits) (LengthInBytes : Nat) (Buffer : Mem)
    (w : World σ) : EFI_STATUS × Mem × World σ :=
  let w1 := LedSetOk true w
  let NumWords := (LengthInBytes / 4) % 4294967296
  let r := readWords D L NumWords 0 Buffer w1
  (r.1, r.2.1, LedSetOk false r.2.2)

/-- The loop
`while (PollCount < USDHC_POLL_RETRY_COUNT) { if (read HSTS & DATA_FLAG) { write DATA, Buffer[WordIdx]; break; } ++PollCount; }`
of `SdhcWriteBlockData`. -/
def writeWordLoop (D : Device σ) (L : SdHostBits) (Buffer : Mem) (WordIdx : Nat) :
    Nat → Nat → World σ → Nat × World σ
  | 0, PollCount, w => (PollCount, w)
  | fuel + 1, PollCount, w =>
    let h := MmioRead32 D .HSTS w
    if h.1 &&& L.SDHOST_HSTS_DATA_FLAG ≠ 0 then
      (PollCount, MmioWrite32 D .DATA (loadWord Buffer WordIdx) h.2)
    else writeWordLoop D L Buffer WordIdx fuel (PollCount + 1) h.2

/-- The loop `for (WordIdx = ...; WordIdx < NumWords; ++WordIdx)` of
`SdhcWriteBlockData` with `n = NumWords - WordIdx` words to go. -/
def writeWords (D : Device σ) (L : SdHostBits) (Buffer : Mem) :
    Nat → Nat → World σ → EFI_STATUS × World σ
  | 0, _, w => (EFI_SUCCESS, w)
  | n + 1, WordIdx, w =>
    let r := writeWordLoop D L Buffer WordIdx USDHC_POLL_RETRY_COUNT 0 w
    if r.1 = USDHC_POLL_RETRY_COUNT then
      (EFI_TIMEOUT, MmioWrite32 D .HSTS L.SDHOST_HSTS_CLEAR (DumpState D L r.2))
    else writeWords D L Buffer n (WordIdx + 1) r.2

/-- `SdhcWriteBlockData`. -/
def SdhcWriteBlockData (D : Device σ) (L : SdHostBits) (LengthInBytes : Nat) (Buffer : Mem)
    (w : World σ) : EFI_STATUS × World σ :=
  let w1 := LedSetOk true w
  let NumWords := (LengthInBytes / 4) % 4294967296
  let r := writeWords D L Buffer NumWords 0 w1
  (r.1, LedSetOk false r.2)

/-! ## Reset, bus width and clock -/

/-- The scope of a software reset. `Unrecognized` stands for every value other
than the three the driver tests for. -/
inductive SDHC_RESET_TYPE where
  | SdhcResetTypeAll
  | SdhcResetTypeCmd
  | SdhcResetTypeData
  | Unrecognized (raw : Nat)
  deriving DecidableEq, Repr

/-- The bus width. `Invalid` stands for every value other than the three the
driver names. -/
inductive SD_BUS_WIDTH where
  | SdBusWidth1Bit
  | SdBusWidth4Bit
  | SdBusWidth8Bit
  | Invalid (raw : Nat)
  deriving DecidableEq, Repr

open SDHC_RESET_TYPE SD_BUS_WIDTH

/-- `SdhcSoftwareReset`. -/
def SdhcSoftwareReset (D : Device σ) (L : SdHostBits) (ResetType : SDHC_RESET_TYPE)
    (w : World σ) : EFI_STATUS × World σ :=
  match ResetType with
  | SdhcResetTypeAll =>
    let w := DumpState D L w
    let w := MmioWrite32 D .VDD 0 w
    let w := MmioWrite32 D .CMD 0 w
    let w := MmioWrite32 D .ARG 0 w
    let w := MmioWrite32 D .CDIV 0 w
    let w := MmioWrite32 D .HSTS L.SDHOST_HSTS_CLEAR w
    let w := MmioWrite32 D .HCFG 0 w
    let w := MmioWrite32 D .HBCT 0 w
    let w := MmioWrite32 D .HBLC 0 w
    let w := Stall D STALL_TO_STABILIZE_US w
    let w := MmioWrite32 D .VDD 1 w
    let w := Stall D STALL_TO_STABILIZE_US w
    let Hcfg := 0
    let Hcfg := Hcfg ||| L.SDHOST_HCFG_WIDE_INT_BUS
    let Hcfg := Hcfg ||| L.SDHOST_HCFG_SLOW_CARD
    let w := MmioWrite32 D .HCFG Hcfg w
    let e := MmioRead32 D .EDM w
    let Edm := e.1
    let Edm := Edm &&& 0xFF
    let Edm := Edm ||| 0x10800
    let w := MmioWrite32 D .EDM Edm e.2
    let w := MmioWrite32 D .HBCT 512 w
    (EFI_SUCCESS, w)
  | SdhcResetTypeCmd =>
    let w := MmioWrite32 D .CMD 0 w
    let w := MmioWrite32 D .ARG 0 w
    let w := MmioWrite32 D .HSTS L.SDHOST_HSTS_CLEAR w
    (EFI_SUCCESS, w)
  | SdhcResetTypeData =>
    let w := MmioWrite32 D .HSTS L.SDHOST_HSTS_CLEAR w
    let w := MmioOr32 D .EDM L.SDHOST_EDM_FIFO_CLEAR w
    (EFI_SUCCESS, w)
  | Unrecognized _ => (EFI_INVALID_PARAMETER, w)

/-- `SdhcSetBusWidth`. -/
def SdhcSetBusWidth (D : Device σ) (L : SdHostBits) (BusWidth : SD_BUS_WIDTH)
    (w : World σ) : EFI_STATUS × World σ :=
  let h := MmioRead32 D .HCFG w
  let HCFG := h.1
  match BusWidth with
  | SdBusWidth1Bit =>
    (EFI_SUCCESS, MmioWrite32 D .HCFG (HCFG &&& not32 L.SDHOST_HCFG_WIDE_EXT_BUS) h.2)
  | SdBusWidth4Bit =>
    (EFI_SUCCESS, MmioWrite32 D .HCFG (HCFG ||| L.SDHOST_HCFG_WIDE_EXT_BUS) h.2)
  | SdBusWidth8Bit => (EFI_INVALID_PARAMETER, h.2)
  | Invalid _ => (EFI_INVALID_PARAMETER, h.2)

/-- The expression `(CoreClockFreqHz - (2 * TargetSdFreqHz)) / TargetSdFreqHz`
in `UINT32` arithmetic. -/
def ClockDiv (CoreClockFreqHz TargetSdFreqHz : Nat) : Nat :=
  ((CoreClockFreqHz + 4294967296 - (2 * TargetSdFreqHz) % 4294967296) % 4294967296)
    / TargetSdFreqHz

/-- The expression `CoreClockFreqHz / (ClockDiv + 2)` in `UINT32` arithmetic. -/
def ActualSdFreqHz (CoreClockFreqHz TargetSdFreqHz : Nat) : Nat :=
  CoreClockFreqHz / ((ClockDiv CoreClockFreqHz TargetSdFreqHz + 2) % 4294967296)

/-- `SdhcSetClock`. `Mailbox` is what `MailboxProperty` answers: its status and
the field `MbGcr.Rate` after the call. The result is `none` when a division by
zero is reached. -/
def SdhcSetClock (D : Device σ) (Mailbox : EFI_STATUS × Nat) (TargetSdFreqHz : Nat)
    (w : World σ) : Option (EFI_STATUS × World σ) :=
  if EFI_ERROR Mailbox.1 then some (Mailbox.1, w)
  else
    let CoreClockFreqHz := Mailbox.2 % 4294967296
    if TargetSdFreqHz = 0 then none
    else if (ClockDiv CoreClockFreqHz TargetSdFreqHz + 2) % 4294967296 = 0 then none
    else
      let w := MmioWrite32 D .CDIV (ClockDiv CoreClockFreqHz TargetSdFreqHz) w
      let w := MmioWrite32 D .TOUT (ActualSdFreqHz CoreClockFreqHz TargetSdFreqHz) w
      some (EFI_SUCCESS, w)

/-! ## RPMB field encoding (`RpmbResetTest.c`) -/

/-- `Uint16ToRpmbBytes`: the two bytes written to `RpmbBytes[0]` and
`RpmbBytes[1]`. -/
def Uint16ToRpmbBytes (Value : Nat) : Nat × Nat :=
  ((Value >>> 8) % 256, (Value &&& 0xF) % 256)

/-- `RpmbBytesToUint16` of the bytes `RpmbBytes[0]` and `RpmbBytes[1]`. -/
def RpmbBytesToUint16 (RpmbBytes : Nat × Nat) : Nat :=
  (((RpmbBytes.1 % 256) <<< 8) ||| (RpmbBytes.2 % 256)) % 65536

/-! ## Sample adder (`EdkTestSample.c`, `EdkNoStdTestSample.c`)

Both files hold the same three functions, word for word. -/

/-- `BuggyAdder`: the bitwise or of two `INT32`. The or of two values of the
type is a value of the type, so nothing wraps. -/
def BuggyAdder (Left Right : Int) : Int :=
  Int.lor Left Right

/-- `TestAdderTrivial`: whether `VERIFY_ARE_EQUAL (INT32, 3, BuggyAdder(1, 2))`
holds. -/
def TestAdderTrivial : Bool :=
  decide ((3 : Int) = BuggyAdder 1 2)

/-- `TestAdderTricky`: whether `VERIFY_ARE_EQUAL (INT32, 2, BuggyAdder(1, 1))`
holds. -/
def TestAdderTricky : Bool :=
  decide ((2 : Int) = BuggyAdder 1 1)

/-! ## The command word as the specification words it -/

/-- The response-mode bits of the command word as the specification states
them: no-response for type None, the busy flag for R1B, long-response for R2
and nothing for the other short types. -/
def specRespFlag (L : SdHostBits) : SD_RESPONSE_TYPE → Nat
  | SdResponseTypeNone => L.SDHOST_CMD_RESPONSE_CMD_NO_RESP
  | SdResponseTypeR1B => L.SDHOST_CMD_BUSY_CMD
  | SdResponseTypeR2 => L.SDHOST_CMD_RESPONSE_CMD_LONG_RESP
  | _ => 0

/-- The direction bits of the command word as the specification states them. -/
def specDirFlag (L : SdHostBits) : SD_TRANSFER_DIRECTION → Nat
  | SdTransferDirectionRead => L.SDHOST_CMD_READ_CMD
  | SdTransferDirectionWrite => L.SDHOST_CMD_WRITE_CMD
  | Undefined _ => 0

/-- The response types the `switch` statements of the driver name. -/
def SD_RESPONSE_TYPE.known : SD_RESPONSE_TYPE → Bool
  | Unknown _ => false
  | _ => true

/-- The block count of the transfer descriptor, when there is one, is at most
`USDHC_MAX_BLOCK_COUNT`. -/
def blockCountOk : Option SD_COMMAND_XFR_INFO → Bool
  | some x => decide (x.BlockCount ≤ USDHC_MAX_BLOCK_COUNT)
  | none => true

/-- The little-endian byte image of the four response words as the
specification states it: byte `k` of the 16 bytes is byte `k % 4` of word
`k / 4`. -/
def specByteImage (rsp0 rsp1 rsp2 rsp3 : Nat) (k : Nat) : Nat :=
  ((match k / 4 with
    | 0 => rsp0
    | 1 => rsp1
    | 2 => rsp2
    | _ => rsp3) / 256 ^ (k % 4)) % 256

/-- The number whose little-endian byte image is the first `n` bytes of a
buffer. -/
def leValue (B : Mem) : Nat → Nat
  | 0 => 0
  | n + 1 => leValue B n + B n * 256 ^ n

/-- The response types for which the specification documents one response
word. -/
def shortResponseTypes : List SD_RESPONSE_TYPE :=
  [SdResponseTypeR1, SdResponseTypeR1B, SdResponseTypeR3, SdResponseTypeR4,
   SdResponseTypeR5, SdResponseTypeR5B, SdResponseTypeR6]

/-! ## Instances used to exercise the definitions -/

/-- A concrete bit assignment with the register dump disabled, used to
instantiate the theorems; the theorems hold for every assignment. -/
def sampleBits : SdHostBits where
  SDHOST_CMD_NEW_FLAG := 0x8000
  SDHOST_CMD_FAIL_FLAG := 0x4000
  SDHOST_CMD_BUSY_CMD := 0x800
  SDHOST_CMD_RESPONSE_CMD_NO_RESP := 0x400
  SDHOST_CMD_RESPONSE_CMD_LONG_RESP := 0x200
  SDHOST_CMD_READ_CMD := 0x40
  SDHOST_CMD_WRITE_CMD := 0x80
  SDHOST_HSTS_DATA_FLAG := 0x1
  SDHOST_HSTS_ERROR := 0xF8
  SDHOST_HSTS_TIMOUT_ERROR := 0x40
  SDHOST_HSTS_CRC7_ERROR := 0x10
  SDHOST_HSTS_CLEAR := 0x7F8
  SDHOST_HCFG_WIDE_EXT_BUS := 0x4
  SDHOST_HCFG_WIDE_INT_BUS := 0x2
  SDHOST_HCFG_SLOW_CARD := 0x8
  SDHOST_EDM_FIFO_CLEAR := 0x200000
  DebugDump := false

/-- The same bit assignment with the register dump enabled. -/
def sampleBitsDebug : SdHostBits :=
  { sampleBits with DebugDump := true }

/-- A device without state whose command register always reads `cmd` and whose
status register always reads `hsts`; every other register reads 0. -/
def constDev (cmd hsts : Nat) : Device Unit where
  read := fun r s =>
    match r with
    | .CMD => (cmd, s)
    | .HSTS => (hsts, s)
    | _ => (0, s)
  write := fun _ _ s => s
  stall := fun _ s => s

/-- A device that holds the last value written to each register. -/
def latchDev : Device (Reg → Nat) where
  read := fun r s => (s r, s)
  write := fun r v s => fun r' => if r' = r then v else s r'
  stall := fun _ s => s

/-- Caller memory filled with the byte 7. -/
def sevens : Mem := fun _ => 7

/-- A register file whose four response registers hold the bytes 1 to 16 and
whose other registers hold 0. -/
def rspRegs : Reg → Nat
  | .RSP0 => 0x04030201
  | .RSP1 => 0x08070605
  | .RSP2 => 0x0C0B0A09
  | .RSP3 => 0x100F0E0D
  | _ => 0

/-- The loopback FIFO of the round-trip property: a write to the data register
enqueues the word, a read of it dequeues the oldest word (0 when there is
none), and the status register reads `hsts` whenever it is polled. -/
def loopbackDev (hsts : Nat) : Device (List Nat) where
  read := fun r q =>
    match r with
    | .DATA => (q.headD 0, q.tail)
    | .HSTS => (hsts, q)
    | _ => (0, q)
  write := fun r v q =>
    match r with
    | .DATA => q ++ [v]
    | _ => q
  stall := fun _ q => q

/-- A device that counts the polls of its status register: the poll number `n`
(from 0) reads 1, the data flag of `sampleBits`, when `ready n` holds and 0
otherwise; the data register reads `data`. -/
def gateDev (ready : Nat → Bool) (data : Nat) : Device Nat where
  read := fun r n =>
    match r with
    | .HSTS => (if ready n then 1 else 0, n + 1)
    | .DATA => (data, n)
    | _ => (0, n)
  write := fun _ _ n => n
  stall := fun _ n => n

/-- A register file whose calibration register holds `0x1FF` and whose other
registers hold 0. -/
def edmRegs : Reg → Nat
  | .EDM => 0x1FF
  | _ => 0

/-- The world before the driver did anything. -/
def World.start (s : σ) : World σ := ⟨s, []⟩

/-! ## Predicates on traces and intermediate worlds -/

/-- What a stretch of trace holds when the driver only polled: no write, and a
known list of stalls. -/
structure Polled (ev : List Event) (n : Nat) : Prop where
  noWrite : ∀ e ∈ ev, e.isWrite = false
  stalls_eq : stalls ev = List.replicate n USDHC_POLL_WAIT_US

/-- A stretch of trace that writes neither the argument nor the command
register. -/
def NoIssue (ev : List Event) : Prop :=
  ∀ e ∈ ev, e.writesTo .ARG = false ∧ e.writesTo .CMD = false

/-- The world in which `SdhcSendCommand` writes the argument and the command
register: after the wait for the previous command, the first status clear, the
FIFO flush of a read command and the second status clear. -/
def issueWorld (D : Device σ) (L : SdHostBits) (Cmd : SD_COMMAND) (w : World σ) : World σ :=
  MmioWrite32 D .HSTS L.SDHOST_HSTS_CLEAR
    (if Cmd.TransferDirection = SdTransferDirectionRead then
      (FlushReadFifo D L (MmioWrite32 D .HSTS L.SDHOST_HSTS_CLEAR (WaitForCmd D L w).2)).2
    else MmioWrite32 D .HSTS L.SDHOST_HSTS_CLEAR (WaitForCmd D L w).2)

/-- The values read from register `r` in a trace, in order. -/
def readsOf (r : Reg) : List Event → List Nat
  | [] => []
  | .read r' v :: t => if r' = r then v :: readsOf r t else readsOf r t
  | _ :: t => readsOf r t

/-- The values written to register `r` in a trace, in order. -/
def writesOf (r : Reg) : List Event → List Nat
  | [] => []
  | .write r' v :: t => if r' = r then v :: writesOf r t else writesOf r t
  | _ :: t => writesOf r t

/-- The device state after `j` polls of the status register. -/
def pollDev (D : Device σ) : Nat → σ → σ
  | 0, s => s
  | j + 1, s => pollDev D j (D.read .HSTS s).2

/-- A stretch of trace that consists of reads of the status register. -/
def AllPolls (ev : List Event) : Prop :=
  ∀ e ∈ ev, ∃ v, e = Event.read .HSTS v

/-- Whether no two reads of register `r` in a trace follow each other without
a stall of `USDHC_POLL_WAIT_US` between them; `pending` tells whether a read
of `r` has been seen since the last such stall. -/
def spaced (r : Reg) : Bool → List Event → Bool
  | _, [] => true
  | pending, .read r' _ :: t =>
    if r' = r then !pending && spaced r true t else spaced r pending t
  | pending, .stall us :: t =>
    if us = USDHC_POLL_WAIT_US then spaced r false t else spaced r pending t
  | pending, _ :: t => spaced r pending t

/-! ## Traces of the primitives and of the polling loops -/

@[simp]
theorem MmioRead32_fst (D : Device σ) (r : Reg) (w : World σ) :
    (MmioRead32 D r w).1 = D.sample r w.dev := rfl

@[simp]
theorem MmioRead32_trace (D : Device σ) (r : Reg) (w : World σ) :
    (MmioRead32 D r w).2.trace = w.trace ++ [Event.read r (D.sample r w.dev)] := rfl

@[simp]
theorem MmioRead32_dev (D : Device σ) (r : Reg) (w : World σ) :
    (MmioRead32 D r w).2.dev = (D.read r w.dev).2 := rfl

@[simp]
theorem MmioWrite32_trace (D : Device σ) (r : Reg) (v : Nat) (w : World σ) :
    (MmioWrite32 D r v w).trace = w.trace ++ [Event.write r v] := rfl

@[simp]
theorem Stall_trace (D : Device σ) (us : Nat) (w : World σ) :
    (Stall D us w).trace = w.trace ++ [Event.stall us] := rfl

theorem stalls_append (a b : List Event) : stalls (a ++ b) = stalls a ++ stalls b := by
  induction a with
  | nil => rfl
  | cons e t ih => cases e <;> simp [stalls, ih]

theorem readCount_append (r : Reg) (a b : List Event) :
    readCount r (a ++ b) = readCount r a + readCount r b := by
  simp [readCount, List.countP_append]

theorem Polled.nil : Polled [] 0 := ⟨by simp, rfl⟩

theorem Polled.followedBy {a b : List Event} {m n : Nat} (ha : Polled a m) (hb : Polled b n) :
    Polled (a ++ b) (m + n) := by
  refine ⟨?_, ?_⟩
  · intro e he
    rcases List.mem_append.mp he with h | h
    · exact ha.noWrite e h
    · exact hb.noWrite e h
  · rw [stalls_append, ha.stalls_eq, hb.stalls_eq, List.replicate_add]

theorem Polled.read (r : Reg) (v : Nat) : Polled [Event.read r v] 0 :=
  ⟨by simp [Event.isWrite], rfl⟩

theorem Polled.stall : Polled [Event.stall USDHC_POLL_WAIT_US] 1 :=
  ⟨by simp [Event.isWrite], rfl⟩

theorem cmdPollLoop_succ_busy (D : Device σ) (L : SdHostBits) (n c : Nat) (w : World σ)
    (hc : c &&& L.SDHOST_CMD_NEW_FLAG ≠ 0) :
    cmdPollLoop D L (n + 1) c w =
      cmdPollLoop D L n (MmioRead32 D .CMD (Stall D USDHC_POLL_WAIT_US w)).1
        (MmioRead32 D .CMD (Stall D USDHC_POLL_WAIT_US w)).2 := by
  rw [cmdPollLoop, if_pos hc]

theorem cmdPollLoop_idle (D : Device σ) (L : SdHostBits) (n c : Nat) (w : World σ)
    (hc : c &&& L.SDHOST_CMD_NEW_FLAG = 0) :
    cmdPollLoop D L n c w = ⟨n, c, w⟩ := by
  cases n with
  | zero => rfl
  | succ n => rw [cmdPollLoop, if_neg (by simpa using hc)]

/-- The poll loop of the command register only stalls and reads, once each per
iteration, and the number of iterations is the budget it used up. -/
theorem cmdPollLoop_events (D : Device σ) (L : SdHostBits) (n c : Nat) (w : World σ) :
    (cmdPollLoop D L n c w).Retry ≤ n ∧
    ∃ ev, (cmdPollLoop D L n c w).world.trace = w.trace ++ ev ∧
      Polled ev (n - (cmdPollLoop D L n c w).Retry) ∧
      readCount .CMD ev = n - (cmdPollLoop D L n c w).Retry := by
  induction n generalizing c w with
  | zero => exact ⟨Nat.le_refl _, [], by simp [cmdPollLoop], Polled.nil, rfl⟩
  | succ n ih =>
    by_cases hb : c &&& L.SDHOST_CMD_NEW_FLAG = 0
    · rw [cmdPollLoop_idle D L _ c w hb]
      exact ⟨Nat.le_refl _, [], by simp, by simpa using Polled.nil, by simp [readCount]⟩
    · rw [cmdPollLoop_succ_busy D L n c w hb]
      obtain ⟨hle, ev, htr, hp, hc⟩ :=
        ih (MmioRead32 D .CMD (Stall D USDHC_POLL_WAIT_US w)).1
          (MmioRead32 D .CMD (Stall D USDHC_POLL_WAIT_US w)).2
      generalize cmdPollLoop D L n (MmioRead32 D .CMD (Stall D USDHC_POLL_WAIT_US w)).1
          (MmioRead32 D .CMD (Stall D USDHC_POLL_WAIT_US w)).2 = q at hle htr hp hc ⊢
      refine ⟨Nat.le_succ_of_le hle, ?_⟩
      refine ⟨[Event.stall USDHC_POLL_WAIT_US] ++
        [Event.read .CMD (D.sample .CMD (Stall D USDHC_POLL_WAIT_US w).dev)] ++ ev, ?_, ?_, ?_⟩
      · simp only [htr, MmioRead32_trace, Stall_trace, List.append_assoc]
      · have h := (Polled.stall.followedBy (Polled.read .CMD
          (D.sample .CMD (Stall D USDHC_POLL_WAIT_US w).dev))).followedBy hp
        have e : 1 + 0 + (n - q.Retry) = n + 1 - q.Retry := by omega
        rw [e] at h
        exact h
      · rw [readCount_append, hc]
        have e : readCount .CMD ([Event.stall USDHC_POLL_WAIT_US] ++
            [Event.read .CMD (D.sample .CMD (Stall D USDHC_POLL_WAIT_US w).dev)]) = 1 := by
          simp [readCount, Event.readsFrom]
        rw [e]
        omega

/-- When the poll loop ends with budget left, the sampled value has the busy
bit clear. -/
theorem cmdPollLoop_done (D : Device σ) (L : SdHostBits) (n c : Nat) (w : World σ)
    (h : (cmdPollLoop D L n c w).Retry ≠ 0) :
    (cmdPollLoop D L n c w).CmdReg &&& L.SDHOST_CMD_NEW_FLAG = 0 := by
  induction n generalizing c w with
  | zero => simp [cmdPollLoop] at h
  | succ n ih =>
    by_cases hb : c &&& L.SDHOST_CMD_NEW_FLAG = 0
    · rw [cmdPollLoop_idle D L _ c w hb]
      exact hb
    · rw [cmdPollLoop_succ_busy D L n c w hb] at h ⊢
      exact ih _ _ h

/-- The value the poll loop ends with is the value it started with or a sample
of the command register. -/
theorem cmdPollLoop_CmdReg (D : Device σ) (L : SdHostBits) (P : Nat → Prop)
    (hs : ∀ s, P (D.sample .CMD s)) (n c : Nat) (w : World σ) (hc : P c) :
    P (cmdPollLoop D L n c w).CmdReg := by
  induction n generalizing c w with
  | zero => simpa [cmdPollLoop] using hc
  | succ n ih =>
    unfold cmdPollLoop
    split
    · exact ih _ _ (hs _)
    · exact hc

/-- When every sample of the command register is busy, the poll loop uses up
its budget. -/
theorem cmdPollLoop_busy (D : Device σ) (L : SdHostBits)
    (hs : ∀ s, D.sample .CMD s &&& L.SDHOST_CMD_NEW_FLAG ≠ 0) (n c : Nat) (w : World σ)
    (hc : c &&& L.SDHOST_CMD_NEW_FLAG ≠ 0) :
    (cmdPollLoop D L n c w).Retry = 0 := by
  induction n generalizing c w with
  | zero => rfl
  | succ n ih =>
    unfold cmdPollLoop
    rw [if_pos hc]
    exact ih _ _ (hs _)

theorem awaitCmd_events (D : Device σ) (L : SdHostBits) (w : World σ) :
    (awaitCmd D L w).Retry ≤ USDHC_POLL_RETRY_COUNT ∧
    ∃ ev, (awaitCmd D L w).world.trace = w.trace ++ ev ∧
      Polled ev (USDHC_POLL_RETRY_COUNT - (awaitCmd D L w).Retry) ∧
      readCount .CMD ev = USDHC_POLL_RETRY_COUNT - (awaitCmd D L w).Retry + 1 := by
  obtain ⟨hle, ev, htr, hp, hc⟩ := cmdPollLoop_events D L USDHC_POLL_RETRY_COUNT
    (MmioRead32 D .CMD w).1 (MmioRead32 D .CMD w).2
  refine ⟨hle, [Event.read .CMD (D.sample .CMD w.dev)] ++ ev, ?_, ?_, ?_⟩
  · simp only [awaitCmd, htr, MmioRead32_trace, List.append_assoc]
  · have h := (Polled.read .CMD (D.sample .CMD w.dev)).followedBy hp
    rw [Nat.zero_add] at h
    exact h
  · rw [readCount_append]
    have e : readCount .CMD [Event.read .CMD (D.sample .CMD w.dev)] = 1 := by
      simp [readCount, Event.readsFrom]
    rw [e]
    simp only [awaitCmd]
    omega

theorem awaitCmd_done (D : Device σ) (L : SdHostBits) (w : World σ)
    (h : (awaitCmd D L w).Retry ≠ 0) :
    (awaitCmd D L w).CmdReg &&& L.SDHOST_CMD_NEW_FLAG = 0 :=
  cmdPollLoop_done D L _ _ _ h

theorem awaitCmd_CmdReg (D : Device σ) (L : SdHostBits) (P : Nat → Prop)
    (hs : ∀ s, P (D.sample .CMD s)) (w : World σ) : P (awaitCmd D L w).CmdReg :=
  cmdPollLoop_CmdReg D L P hs _ _ _ (hs _)

theorem awaitCmd_busy (D : Device σ) (L : SdHostBits)
    (hs : ∀ s, D.sample .CMD s &&& L.SDHOST_CMD_NEW_FLAG ≠ 0) (w : World σ) :
    (awaitCmd D L w).Retry = 0 :=
  cmdPollLoop_busy D L hs _ _ _ (hs _)

theorem awaitCmd_idle (D : Device σ) (L : SdHostBits) (w : World σ)
    (h : D.sample .CMD w.dev &&& L.SDHOST_CMD_NEW_FLAG = 0) :
    awaitCmd D L w =
      ⟨USDHC_POLL_RETRY_COUNT, D.sample .CMD w.dev, (MmioRead32 D .CMD w).2⟩ :=
  cmdPollLoop_idle D L _ _ _ h

/-- Reading a list of registers one after the other leaves a stretch of reads. -/
theorem readAll_events (D : Device σ) (regs : List Reg) (w : World σ) :
    ∃ ev, (regs.foldl (fun w r => (MmioRead32 D r w).2) w).trace = w.trace ++ ev ∧
      Polled ev 0 := by
  induction regs generalizing w with
  | nil => exact ⟨[], by simp, Polled.nil⟩
  | cons r t ih =>
    obtain ⟨ev, htr, hp⟩ := ih (MmioRead32 D r w).2
    refine ⟨[Event.read r (D.sample r w.dev)] ++ ev, ?_, ?_⟩
    · simp only [List.foldl_cons, htr, MmioRead32_trace, List.append_assoc]
    · simpa using (Polled.read r (D.sample r w.dev)).followedBy hp

theorem DumpState_events (D : Device σ) (L : SdHostBits) (w : World σ) :
    ∃ ev, (DumpState D L w).trace = w.trace ++ ev ∧ Polled ev 0 := by
  unfold DumpState
  split
  · exact readAll_events D dumpRegs w
  · exact ⟨[], by simp, Polled.nil⟩

/-- The status part of the result of `WaitForCmdResponse` as one expression of
the budget left, the last sample of the command register and the masked
status register. -/
theorem WaitForCmdResponse_status (D : Device σ) (L : SdHostBits) (Cmd : SD_COMMAND)
    (Argument : Nat) (w : World σ) :
    (WaitForCmdResponse D L Cmd Argument w).1 =
      if Cmd.Index = 7 ∧ Argument = 0 then EFI_SUCCESS
      else if (awaitCmd D L w).CmdReg &&& L.SDHOST_CMD_FAIL_FLAG ≠ 0 then
        if D.sample .HSTS (awaitCmd D L w).world.dev &&& L.SDHOST_HSTS_ERROR
            = L.SDHOST_HSTS_CRC7_ERROR then EFI_SUCCESS
        else if D.sample .HSTS (awaitCmd D L w).world.dev &&& L.SDHOST_HSTS_ERROR
            &&& L.SDHOST_HSTS_TIMOUT_ERROR ≠ 0 then EFI_TIMEOUT
        else EFI_DEVICE_ERROR
      else if (awaitCmd D L w).Retry = 0 then EFI_TIMEOUT else EFI_SUCCESS := by
  simp only [WaitForCmdResponse, MmioRead32_fst]

/-- The trace of `WaitForCmdResponse`: a stretch of polling, with one stall per
iteration of the loop, and then the write that clears the status register. -/
theorem WaitForCmdResponse_events (D : Device σ) (L : SdHostBits) (Cmd : SD_COMMAND)
    (Argument : Nat) (w : World σ) :
    ∃ pre, (WaitForCmdResponse D L Cmd Argument w).2.trace =
        w.trace ++ pre ++ [Event.write .HSTS L.SDHOST_HSTS_CLEAR] ∧
      Polled pre (USDHC_POLL_RETRY_COUNT - (awaitCmd D L w).Retry) := by
  obtain ⟨_, ev, htr, hp, _⟩ := awaitCmd_events D L w
  have hh := (hp.followedBy (Polled.read .HSTS (D.sample .HSTS (awaitCmd D L w).world.dev)))
  rw [Nat.add_zero] at hh
  have base : (MmioRead32 D .HSTS (awaitCmd D L w).world).2.trace =
      w.trace ++ (ev ++ [Event.read .HSTS (D.sample .HSTS (awaitCmd D L w).world.dev)]) := by
    simp only [MmioRead32_trace, htr, List.append_assoc]
  have key : ∀ w2 : World σ,
      (w2 = (MmioRead32 D .HSTS (awaitCmd D L w).world).2 ∨
        w2 = DumpState D L (MmioRead32 D .HSTS (awaitCmd D L w).world).2 ∨
        w2 = DumpState D L (DumpState D L (MmioRead32 D .HSTS (awaitCmd D L w).world).2)) →
      ∃ pre, w2.trace = w.trace ++ pre ∧
        Polled pre (USDHC_POLL_RETRY_COUNT - (awaitCmd D L w).Retry) := by
    intro w2 h2
    obtain ⟨d1, hd1, hp1⟩ := DumpState_events D L (MmioRead32 D .HSTS (awaitCmd D L w).world).2
    obtain ⟨d2, hd2, hp2⟩ :=
      DumpState_events D L (DumpState D L (MmioRead32 D .HSTS (awaitCmd D L w).world).2)
    rcases h2 with h2 | h2 | h2
    · exact ⟨_, h2 ▸ base, hh⟩
    · refine ⟨_ ++ d1, ?_, hh.followedBy hp1⟩
      rw [h2, hd1, base]
      simp only [List.append_assoc]
    · refine ⟨_ ++ d1 ++ d2, ?_, (hh.followedBy hp1).followedBy hp2⟩
      rw [h2, hd2, hd1, base]
      simp only [List.append_assoc]
  have fin : ∀ w2 : World σ,
      (w2 = (MmioRead32 D .HSTS (awaitCmd D L w).world).2 ∨
        w2 = DumpState D L (MmioRead32 D .HSTS (awaitCmd D L w).world).2 ∨
        w2 = DumpState D L (DumpState D L (MmioRead32 D .HSTS (awaitCmd D L w).world).2)) →
      ∃ pre, (MmioWrite32 D .HSTS L.SDHOST_HSTS_CLEAR w2).trace =
          w.trace ++ pre ++ [Event.write .HSTS L.SDHOST_HSTS_CLEAR] ∧
        Polled pre (USDHC_POLL_RETRY_COUNT - (awaitCmd D L w).Retry) := by
    intro w2 h2
    obtain ⟨pre, h, hp⟩ := key w2 h2
    exact ⟨pre, by rw [MmioWrite32_trace, h], hp⟩
  simp only [WaitForCmdResponse]
  apply fin
  split_ifs <;> simp

theorem WaitForCmd_events (D : Device σ) (L : SdHostBits) (w : World σ) :
    ∃ ev, (WaitForCmd D L w).2.trace = w.trace ++ ev ∧
      Polled ev (USDHC_POLL_RETRY_COUNT - (awaitCmd D L w).Retry) := by
  obtain ⟨_, ev, htr, hp, _⟩ := awaitCmd_events D L w
  refine ⟨ev, ?_, hp⟩
  simp only [WaitForCmd]
  split_ifs <;> exact htr

theorem WaitForCmd_status (D : Device σ) (L : SdHostBits) (w : World σ) :
    (WaitForCmd D L w).1 =
      if (awaitCmd D L w).CmdReg &&& L.SDHOST_CMD_NEW_FLAG ≠ 0 then EFI_DEVICE_ERROR
      else EFI_SUCCESS := by
  simp only [WaitForCmd]
  split_ifs <;> rfl

theorem flushLoop_succ_set (D : Device σ) (L : SdHostBits) (n : Nat) (w : World σ)
    (h : D.sample .HSTS w.dev &&& L.SDHOST_HSTS_DATA_FLAG ≠ 0) :
    flushLoop D L (n + 1) w =
      flushLoop D L n (Stall D USDHC_POLL_WAIT_US (MmioRead32 D .DATA (MmioRead32 D .HSTS w).2).2) := by
  rw [flushLoop]
  simp only [MmioRead32_fst]
  rw [if_pos h]

theorem flushLoop_succ_clear (D : Device σ) (L : SdHostBits) (n : Nat) (w : World σ)
    (h : D.sample .HSTS w.dev &&& L.SDHOST_HSTS_DATA_FLAG = 0) :
    flushLoop D L (n + 1) w = (n + 1, (MmioRead32 D .HSTS w).2) := by
  rw [flushLoop]
  simp only [MmioRead32_fst]
  rw [if_neg (by simpa using h)]

/-- The flush loop only reads and stalls; each iteration discards one word of
the data register and stalls once, and the number of iterations is the budget
it used up. -/
theorem flushLoop_events (D : Device σ) (L : SdHostBits) (n : Nat) (w : World σ) :
    (flushLoop D L n w).1 ≤ n ∧
    ∃ ev, (flushLoop D L n w).2.trace = w.trace ++ ev ∧
      Polled ev (n - (flushLoop D L n w).1) ∧
      readCount .DATA ev = n - (flushLoop D L n w).1 := by
  induction n generalizing w with
  | zero =>
    refine ⟨Nat.le_refl _, [Event.read .HSTS (D.sample .HSTS w.dev)], ?_, ?_, ?_⟩
    · simp [flushLoop]
    · simpa [flushLoop] using Polled.read .HSTS (D.sample .HSTS w.dev)
    · simp [flushLoop, readCount, Event.readsFrom]
  | succ n ih =>
    by_cases hb : D.sample .HSTS w.dev &&& L.SDHOST_HSTS_DATA_FLAG = 0
    · rw [flushLoop_succ_clear D L n w hb]
      refine ⟨Nat.le_refl _, [Event.read .HSTS (D.sample .HSTS w.dev)], ?_, ?_, ?_⟩
      · simp
      · simpa using Polled.read .HSTS (D.sample .HSTS w.dev)
      · simp [readCount, Event.readsFrom]
    · rw [flushLoop_succ_set D L n w hb]
      obtain ⟨hle, ev, htr, hp, hc⟩ :=
        ih (Stall D USDHC_POLL_WAIT_US (MmioRead32 D .DATA (MmioRead32 D .HSTS w).2).2)
      generalize flushLoop D L n
        (Stall D USDHC_POLL_WAIT_US (MmioRead32 D .DATA (MmioRead32 D .HSTS w).2).2) = q
        at hle htr hp hc ⊢
      refine ⟨Nat.le_succ_of_le hle, ?_⟩
      refine ⟨[Event.read .HSTS (D.sample .HSTS w.dev)] ++
        [Event.read .DATA (D.sample .DATA (MmioRead32 D .HSTS w).2.dev)] ++
        [Event.stall USDHC_POLL_WAIT_US] ++ ev, ?_, ?_, ?_⟩
      · simp only [htr, MmioRead32_trace, Stall_trace, List.append_assoc]
      · have h := (((Polled.read .HSTS (D.sample .HSTS w.dev)).followedBy
          (Polled.read .DATA (D.sample .DATA (MmioRead32 D .HSTS w).2.dev))).followedBy
          Polled.stall).followedBy hp
        have e : 0 + 0 + 1 + (n - q.1) = n + 1 - q.1 := by omega
        rw [e] at h
        exact h
      · rw [readCount_append, hc]
        have e : readCount .DATA ([Event.read .HSTS (D.sample .HSTS w.dev)] ++
            [Event.read .DATA (D.sample .DATA (MmioRead32 D .HSTS w).2.dev)] ++
            [Event.stall USDHC_POLL_WAIT_US]) = 1 := by
          simp [readCount, Event.readsFrom]
        rw [e]
        omega

/-- When every sample of the status register has the data flag set, the flush
loop uses up its budget. -/
theorem flushLoop_stuck (D : Device σ) (L : SdHostBits)
    (hs : ∀ s, D.sample .HSTS s &&& L.SDHOST_HSTS_DATA_FLAG ≠ 0) (n : Nat) (w : World σ) :
    (flushLoop D L n w).1 = 0 := by
  induction n generalizing w with
  | zero => rfl
  | succ n ih =>
    rw [flushLoop_succ_set D L n w (hs _)]
    exact ih _

theorem FlushReadFifo_status (D : Device σ) (L : SdHostBits) (w : World σ) :
    (FlushReadFifo D L w).1 =
      if (flushLoop D L USDHC_POLL_RETRY_COUNT w).1 = 0 then EFI_TIMEOUT else EFI_SUCCESS := by
  simp only [FlushReadFifo]
  split_ifs <;> rfl

theorem FlushReadFifo_events (D : Device σ) (L : SdHostBits) (w : World σ) :
    ∃ ev, (FlushReadFifo D L w).2.trace = w.trace ++ ev ∧
      Polled ev (USDHC_POLL_RETRY_COUNT - (flushLoop D L USDHC_POLL_RETRY_COUNT w).1) ∧
      readCount .DATA ev =
        USDHC_POLL_RETRY_COUNT - (flushLoop D L USDHC_POLL_RETRY_COUNT w).1 := by
  obtain ⟨_, ev, htr, hp, hc⟩ := flushLoop_events D L USDHC_POLL_RETRY_COUNT w
  refine ⟨ev, ?_, hp, hc⟩
  simp only [FlushReadFifo]
  split_ifs <;> exact htr

/-! ## The paths through `SdhcSendCommand` -/

theorem SdhcSendCommand_busy (D : Device σ) (L : SdHostBits) (Cmd : SD_COMMAND)
    (Argument : Nat) (XfrInfo : Option SD_COMMAND_XFR_INFO) (w : World σ)
    (h : (WaitForCmd D L w).1 ≠ EFI_SUCCESS) :
    SdhcSendCommand D L Cmd Argument XfrInfo w = WaitForCmd D L w := by
  simp only [SdhcSendCommand]
  rw [if_pos h]

theorem SdhcSendCommand_reject (D : Device σ) (L : SdHostBits) (Cmd : SD_COMMAND)
    (Argument : Nat) (XfrInfo : Option SD_COMMAND_XFR_INFO) (w : World σ)
    (h : (WaitForCmd D L w).1 = EFI_SUCCESS)
    (hbad : blockCountOk XfrInfo = false ∨ Cmd.ResponseType.known = false) :
    SdhcSendCommand D L Cmd Argument XfrInfo w =
      (EFI_INVALID_PARAMETER, MmioWrite32 D .HSTS L.SDHOST_HSTS_CLEAR (WaitForCmd D L w).2) := by
  simp only [SdhcSendCommand]
  rw [if_neg (by simp [h])]
  by_cases hc : blockCountOk XfrInfo = false
  · cases XfrInfo with
    | none => simp [blockCountOk] at hc
    | some x =>
      have : USDHC_MAX_BLOCK_COUNT < x.BlockCount := by simpa [blockCountOk] using hc
      simp [this]
  · have hk : Cmd.ResponseType.known = false := by
      rcases hbad with h1 | h1
      · exact absurd h1 hc
      · exact h1
    cases hr : Cmd.ResponseType <;> rw [hr] at hk <;>
      simp [SD_RESPONSE_TYPE.known] at hk
    split_ifs <;> rfl

theorem SdhcSendCommand_issue (D : Device σ) (L : SdHostBits) (Cmd : SD_COMMAND)
    (Argument : Nat) (XfrInfo : Option SD_COMMAND_XFR_INFO) (w : World σ)
    (h : (WaitForCmd D L w).1 = EFI_SUCCESS)
    (hcount : blockCountOk XfrInfo = true) (hknown : Cmd.ResponseType.known = true) :
    SdhcSendCommand D L Cmd Argument XfrInfo w =
      WaitForCmdResponse D L Cmd Argument
        (MmioWrite32 D .CMD
          (Cmd.Index ||| L.SDHOST_CMD_NEW_FLAG ||| specRespFlag L Cmd.ResponseType
            ||| specDirFlag L Cmd.TransferDirection)
          (MmioWrite32 D .ARG Argument (issueWorld D L Cmd w))) := by
  have hret : ∀ r : EFI_STATUS × World σ,
      (if EFI_ERROR r.1 = true then (r.1, r.2) else (EFI_SUCCESS, r.2)) = r := by
    rintro ⟨st, wr⟩
    cases st <;> simp [EFI_ERROR]
  have hc : ∀ X : Option SD_COMMAND_XFR_INFO, blockCountOk X = true →
      (match X with
      | some x => decide (x.BlockCount > USDHC_MAX_BLOCK_COUNT)
      | none => false) = false := by
    intro X hX
    cases X with
    | none => rfl
    | some x =>
      have : x.BlockCount ≤ USDHC_MAX_BLOCK_COUNT := by simpa [blockCountOk] using hX
      simp [this]
  simp only [SdhcSendCommand]
  rw [if_neg (by simp [h]), hc XfrInfo hcount]
  simp only [Bool.false_eq_true, if_false]
  cases hr : Cmd.ResponseType <;> rw [hr] at hknown <;>
    simp [SD_RESPONSE_TYPE.known] at hknown <;>
    cases hd : Cmd.TransferDirection <;>
    simp [hret, specRespFlag, specDirFlag, issueWorld, hd]

@[simp]
theorem constDev_sample_CMD (c h : Nat) (s : Unit) :
    (constDev c h).sample .CMD s = c % 4294967296 := rfl

@[simp]
theorem constDev_sample_HSTS (c h : Nat) (s : Unit) :
    (constDev c h).sample .HSTS s = h % 4294967296 := rfl

/-! ## Completion classification -/

/-- C1: in `WaitForCmdResponse`, for a command other than (index 7, argument
0), when the poll loop ends with retries left (so the busy bit was seen clear
before the counter reached 0), the result is success if the FAIL bit of the
command register is clear; otherwise, with `StsReg = HSTS & SDHOST_HSTS_ERROR`,
it is timeout if `StsReg` has the timeout-error bit, success if `StsReg` is
exactly the CRC7-error bit, and device error in every other case. The two
error masks are taken to be disjoint bits. -/
theorem C1_completion_classification (D : Device σ) (L : SdHostBits) (Cmd : SD_COMMAND)
    (Argument : Nat) (w : World σ)
    (hq : ¬(Cmd.Index = 7 ∧ Argument = 0))
    (hbits : L.SDHOST_HSTS_CRC7_ERROR &&& L.SDHOST_HSTS_TIMOUT_ERROR = 0)
    (hbudget : (awaitCmd D L w).Retry ≠ 0) :
    (awaitCmd D L w).CmdReg &&& L.SDHOST_CMD_NEW_FLAG = 0 ∧
    (WaitForCmdResponse D L Cmd Argument w).1 =
      if (awaitCmd D L w).CmdReg &&& L.SDHOST_CMD_FAIL_FLAG = 0 then EFI_SUCCESS
      else if (MmioRead32 D .HSTS (awaitCmd D L w).world).1 &&& L.SDHOST_HSTS_ERROR
          &&& L.SDHOST_HSTS_TIMOUT_ERROR ≠ 0 then EFI_TIMEOUT
      else if (MmioRead32 D .HSTS (awaitCmd D L w).world).1 &&& L.SDHOST_HSTS_ERROR
          = L.SDHOST_HSTS_CRC7_ERROR then EFI_SUCCESS
      else EFI_DEVICE_ERROR := by
  refine ⟨awaitCmd_done D L w hbudget, ?_⟩
  rw [WaitForCmdResponse_status, if_neg hq]
  simp only [MmioRead32_fst]
  by_cases hf : (awaitCmd D L w).CmdReg &&& L.SDHOST_CMD_FAIL_FLAG = 0
  · rw [if_neg (by simp [hf]), if_neg hbudget, if_pos hf]
  · rw [if_pos hf, if_neg hf]
    by_cases hc : D.sample .HSTS (awaitCmd D L w).world.dev &&& L.SDHOST_HSTS_ERROR
        = L.SDHOST_HSTS_CRC7_ERROR
    · rw [if_pos hc, if_neg (by rw [hc, hbits]; simp), if_pos hc]
    · rw [if_neg hc, if_neg hc]

/-- C1, instance: the command register reads FAIL without NEW at once and the
status register reads exactly the CRC7-error bit; CMD17 completes with success. -/
theorem C1_completion_classification_witness :
    (awaitCmd (constDev 0x4000 0x10) sampleBits (World.start ())).Retry ≠ 0 ∧
    (WaitForCmdResponse (constDev 0x4000 0x10) sampleBits
      ⟨17, SdResponseTypeR1, SdTransferDirectionRead⟩ 0 (World.start ())).1 = EFI_SUCCESS :=
  ⟨by decide,
    (C1_completion_classification (constDev 0x4000 0x10) sampleBits
      ⟨17, SdResponseTypeR1, SdTransferDirectionRead⟩ 0 (World.start ())
      (by decide) (by decide) (by decide)).2.trans (by decide)⟩

/-- C2, as stated, fails: the command register always reads NEW and FAIL and
the status register reads 0; the retry budget is exhausted and the result of
`WaitForCmdResponse` for CMD17 is device error, not timeout. -/
theorem C2_counterexample :
    (awaitCmd (constDev 0xC000 0) sampleBits (World.start ())).Retry = 0 ∧
    (WaitForCmdResponse (constDev 0xC000 0) sampleBits
      ⟨17, SdResponseTypeR1, SdTransferDirectionRead⟩ 0 (World.start ())).1
        = EFI_DEVICE_ERROR := by
  have hb : ∀ s, (constDev 0xC000 0).sample .CMD s &&& sampleBits.SDHOST_CMD_NEW_FLAG ≠ 0 :=
    fun s => by rw [constDev_sample_CMD]; decide
  have hc : (awaitCmd (constDev 0xC000 0) sampleBits (World.start ())).CmdReg = 0xC000 :=
    awaitCmd_CmdReg (constDev 0xC000 0) sampleBits (fun c => c = 0xC000) (fun _ => rfl) _
  refine ⟨awaitCmd_busy _ _ hb _, ?_⟩
  rw [WaitForCmdResponse_status, hc]
  decide

/-- C2, amended: in `WaitForCmdResponse`, for a command other than (index 7,
argument 0), when the retry budget is exhausted the result is timeout if the
FAIL bit of the last sample of the command register is clear; if FAIL is set
the fail-bit classification applies as without exhaustion: timeout if `StsReg`
has the timeout-error bit, success if `StsReg` is exactly the CRC7-error bit,
device error otherwise. -/
theorem C2_exhaustion_classification (D : Device σ) (L : SdHostBits) (Cmd : SD_COMMAND)
    (Argument : Nat) (w : World σ)
    (hq : ¬(Cmd.Index = 7 ∧ Argument = 0))
    (hbits : L.SDHOST_HSTS_CRC7_ERROR &&& L.SDHOST_HSTS_TIMOUT_ERROR = 0)
    (hexhausted : (awaitCmd D L w).Retry = 0) :
    (WaitForCmdResponse D L Cmd Argument w).1 =
      if (awaitCmd D L w).CmdReg &&& L.SDHOST_CMD_FAIL_FLAG = 0 then EFI_TIMEOUT
      else if (MmioRead32 D .HSTS (awaitCmd D L w).world).1 &&& L.SDHOST_HSTS_ERROR
          &&& L.SDHOST_HSTS_TIMOUT_ERROR ≠ 0 then EFI_TIMEOUT
      else if (MmioRead32 D .HSTS (awaitCmd D L w).world).1 &&& L.SDHOST_HSTS_ERROR
          = L.SDHOST_HSTS_CRC7_ERROR then EFI_SUCCESS
      else EFI_DEVICE_ERROR := by
  rw [WaitForCmdResponse_status, if_neg hq]
  simp only [MmioRead32_fst]
  by_cases hf : (awaitCmd D L w).CmdReg &&& L.SDHOST_CMD_FAIL_FLAG = 0
  · rw [if_neg (by simp [hf]), if_pos hexhausted, if_pos hf]
  · rw [if_pos hf, if_neg hf]
    by_cases hc : D.sample .HSTS (awaitCmd D L w).world.dev &&& L.SDHOST_HSTS_ERROR
        = L.SDHOST_HSTS_CRC7_ERROR
    · rw [if_pos hc, if_neg (by rw [hc, hbits]; simp), if_pos hc]
    · rw [if_neg hc, if_neg hc]

/-- C2 amended, instance: the command register always reads NEW without FAIL;
the budget is exhausted and CMD17 ends in timeout. -/
theorem C2_exhaustion_classification_witness :
    (awaitCmd (constDev 0x8000 0) sampleBits (World.start ())).Retry = 0 ∧
    (WaitForCmdResponse (constDev 0x8000 0) sampleBits
      ⟨17, SdResponseTypeR1, SdTransferDirectionRead⟩ 0 (World.start ())).1 = EFI_TIMEOUT := by
  have hb : ∀ s, (constDev 0x8000 0).sample .CMD s &&& sampleBits.SDHOST_CMD_NEW_FLAG ≠ 0 :=
    fun s => by rw [constDev_sample_CMD]; decide
  have hc : (awaitCmd (constDev 0x8000 0) sampleBits (World.start ())).CmdReg = 0x8000 :=
    awaitCmd_CmdReg (constDev 0x8000 0) sampleBits (fun c => c = 0x8000) (fun _ => rfl) _
  refine ⟨awaitCmd_busy _ _ hb _, ?_⟩
  rw [C2_exhaustion_classification (constDev 0x8000 0) sampleBits
    ⟨17, SdResponseTypeR1, SdTransferDirectionRead⟩ 0 (World.start ())
    (by decide) (by decide) (awaitCmd_busy _ _ hb _), hc]
  decide

/-- C3: `WaitForCmdResponse` with command index 7 and argument 0 returns
success whatever the registers read; hence `SdhcSendCommand` with index 7 and
argument 0 returns success whenever it gets as far as writing the command
register. -/
theorem C3_cmd7_rca0_quirk (D : Device σ) (L : SdHostBits) (Cmd : SD_COMMAND) (w : World σ)
    (h7 : Cmd.Index = 7) :
    (WaitForCmdResponse D L Cmd 0 w).1 = EFI_SUCCESS ∧
    ∀ (XfrInfo : Option SD_COMMAND_XFR_INFO) (ev : List Event),
      (SdhcSendCommand D L Cmd 0 XfrInfo w).2.trace = w.trace ++ ev →
      (∃ v, Event.write .CMD v ∈ ev) →
      (SdhcSendCommand D L Cmd 0 XfrInfo w).1 = EFI_SUCCESS := by
  have quirk : ∀ w' : World σ, (WaitForCmdResponse D L Cmd 0 w').1 = EFI_SUCCESS := by
    intro w'
    rw [WaitForCmdResponse_status, if_pos ⟨h7, rfl⟩]
  refine ⟨quirk w, ?_⟩
  intro XfrInfo ev hev hcmd
  obtain ⟨v, hv⟩ := hcmd
  obtain ⟨e0, he0, hp0⟩ := WaitForCmd_events D L w
  by_cases hw : (WaitForCmd D L w).1 = EFI_SUCCESS
  · by_cases hok : blockCountOk XfrInfo = true ∧ Cmd.ResponseType.known = true
    · rw [SdhcSendCommand_issue D L Cmd 0 XfrInfo w hw hok.1 hok.2]
      exact quirk _
    · have hbad : blockCountOk XfrInfo = false ∨ Cmd.ResponseType.known = false := by
        by_cases h1 : blockCountOk XfrInfo = true
        · right
          simpa using fun h2 => hok ⟨h1, h2⟩
        · left
          simpa using h1
      rw [SdhcSendCommand_reject D L Cmd 0 XfrInfo w hw hbad] at hev
      simp only [MmioWrite32_trace, he0, List.append_assoc] at hev
      have := List.append_cancel_left hev
      rw [← this] at hv
      rcases List.mem_append.mp hv with h1 | h1
      · have := hp0.noWrite _ h1
        simp [Event.isWrite] at this
      · simp at h1
  · rw [SdhcSendCommand_busy D L Cmd 0 XfrInfo w hw, he0] at hev
    have := List.append_cancel_left hev
    rw [← this] at hv
    have := hp0.noWrite _ hv
    simp [Event.isWrite] at this

/-- C3, instance: CMD7 with argument 0 on a device whose command register
reads FAIL and whose status register reads the timeout-error bit. -/
theorem C3_cmd7_rca0_quirk_witness :
    (WaitForCmdResponse (constDev 0x4000 0x40) sampleBits
      ⟨7, SdResponseTypeR1B, Undefined 0⟩ 0 (World.start ())).1 = EFI_SUCCESS ∧
    (SdhcSendCommand (constDev 0x4000 0x40) sampleBits
      ⟨7, SdResponseTypeR1B, Undefined 0⟩ 0 none (World.start ())).1 = EFI_SUCCESS :=
  ⟨(C3_cmd7_rca0_quirk (constDev 0x4000 0x40) sampleBits
      ⟨7, SdResponseTypeR1B, Undefined 0⟩ (World.start ()) rfl).1,
   (C3_cmd7_rca0_quirk (constDev 0x4000 0x40) sampleBits
      ⟨7, SdResponseTypeR1B, Undefined 0⟩ (World.start ()) rfl).2 none
      [Event.read .CMD 0x4000, Event.write .HSTS 0x7F8, Event.write .HSTS 0x7F8,
       Event.write .ARG 0, Event.write .CMD 0x8807, Event.read .CMD 0x4000,
       Event.read .HSTS 0x40, Event.write .HSTS 0x7F8]
      (by decide) ⟨0x8807, by decide⟩⟩

/-- C4, as stated, fails: with a block count of 65536 on an idle device,
`SdhcSendCommand` does return invalid parameter, but only after it has written
`SDHOST_HSTS_CLEAR` to the status register. -/
theorem C4_counterexample :
    ¬((SdhcSendCommand (constDev 0 0) sampleBits
        ⟨17, SdResponseTypeR1, SdTransferDirectionRead⟩ 0 (some ⟨65536⟩) (World.start ())).1
          = EFI_INVALID_PARAMETER ∧
      ∀ e ∈ (SdhcSendCommand (constDev 0 0) sampleBits
        ⟨17, SdResponseTypeR1, SdTransferDirectionRead⟩ 0 (some ⟨65536⟩)
        (World.start ())).2.trace, e.isWrite = false) := by
  decide

/-- C4, amended: for every command and argument and every transfer descriptor
whose block count exceeds 65535, `SdhcSendCommand` first waits for the previous
command. If that wait fails it returns device error and writes no register. If
it succeeds the call returns invalid parameter and its only register write is
`SDHOST_HSTS_CLEAR` to the status register, made last: the argument and the
command register are not written. -/
theorem C4_block_count_rejected (D : Device σ) (L : SdHostBits) (Cmd : SD_COMMAND)
    (Argument : Nat) (x : SD_COMMAND_XFR_INFO) (w : World σ)
    (hx : x.BlockCount > 65535) :
    ((WaitForCmd D L w).1 = EFI_SUCCESS →
      (SdhcSendCommand D L Cmd Argument (some x) w).1 = EFI_INVALID_PARAMETER ∧
      ∃ pre, (SdhcSendCommand D L Cmd Argument (some x) w).2.trace =
          w.trace ++ pre ++ [Event.write .HSTS L.SDHOST_HSTS_CLEAR] ∧
        ∀ e ∈ pre, e.isWrite = false) ∧
    ((WaitForCmd D L w).1 ≠ EFI_SUCCESS →
      (SdhcSendCommand D L Cmd Argument (some x) w).1 = EFI_DEVICE_ERROR ∧
      ∃ pre, (SdhcSendCommand D L Cmd Argument (some x) w).2.trace = w.trace ++ pre ∧
        ∀ e ∈ pre, e.isWrite = false) := by
  obtain ⟨e0, he0, hp0⟩ := WaitForCmd_events D L w
  have hbad : blockCountOk (some x) = false := by
    have : ¬ x.BlockCount ≤ USDHC_MAX_BLOCK_COUNT := by
      simp only [USDHC_MAX_BLOCK_COUNT]
      omega
    simp [blockCountOk, this]
  constructor
  · intro hw
    rw [SdhcSendCommand_reject D L Cmd Argument (some x) w hw (Or.inl hbad)]
    exact ⟨rfl, e0, by rw [MmioWrite32_trace, he0], hp0.noWrite⟩
  · intro hw
    rw [SdhcSendCommand_busy D L Cmd Argument (some x) w hw]
    refine ⟨?_, e0, he0, hp0.noWrite⟩
    rw [WaitForCmd_status] at hw ⊢
    split_ifs at hw ⊢ with h
    · rfl
    · exact absurd rfl hw

/-- C4 amended, instance: a block count of 65536 on an idle device. -/
theorem C4_block_count_rejected_witness :
    (65536 : Nat) > 65535 ∧
    (SdhcSendCommand (constDev 0 0) sampleBits
      ⟨17, SdResponseTypeR1, SdTransferDirectionRead⟩ 0 (some ⟨65536⟩) (World.start ())).1
        = EFI_INVALID_PARAMETER :=
  ⟨by decide,
    ((C4_block_count_rejected (constDev 0 0) sampleBits
      ⟨17, SdResponseTypeR1, SdTransferDirectionRead⟩ 0 ⟨65536⟩ (World.start ())
      (by decide)).1 (by decide)).1⟩

/-- C5: on every path through `WaitForCmdResponse` the last thing the function
does is one write of `SDHOST_HSTS_CLEAR` to the status register; everything
before it is a read or a stall, so no other register is written. -/
theorem C5_status_clear_last (D : Device σ) (L : SdHostBits) (Cmd : SD_COMMAND)
    (Argument : Nat) (w : World σ) :
    ∃ pre, (WaitForCmdResponse D L Cmd Argument w).2.trace =
        w.trace ++ pre ++ [Event.write .HSTS L.SDHOST_HSTS_CLEAR] ∧
      ∀ e ∈ pre, e.isWrite = false := by
  obtain ⟨pre, h, hp⟩ := WaitForCmdResponse_events D L Cmd Argument w
  exact ⟨pre, h, hp.noWrite⟩

/-! ## Command issuance -/

theorem NoIssue.andThen {a b : List Event} (ha : NoIssue a) (hb : NoIssue b) :
    NoIssue (a ++ b) := by
  intro e he
  rcases List.mem_append.mp he with h | h
  · exact ha e h
  · exact hb e h

theorem NoIssue.of_polled {ev : List Event} {n : Nat} (h : Polled ev n) : NoIssue ev := by
  intro e he
  have := h.noWrite e he
  cases e <;> simp_all [Event.isWrite, Event.writesTo]

theorem NoIssue.clear (v : Nat) : NoIssue [Event.write .HSTS v] := by
  intro e he
  simp only [List.mem_singleton] at he
  subst he
  simp [Event.writesTo]

theorem issueWorld_events (D : Device σ) (L : SdHostBits) (Cmd : SD_COMMAND) (w : World σ) :
    ∃ pre, (issueWorld D L Cmd w).trace = w.trace ++ pre ∧ NoIssue pre := by
  obtain ⟨e0, he0, hp0⟩ := WaitForCmd_events D L w
  obtain ⟨e1, he1, hp1, _⟩ :=
    FlushReadFifo_events D L (MmioWrite32 D .HSTS L.SDHOST_HSTS_CLEAR (WaitForCmd D L w).2)
  unfold issueWorld
  split
  · refine ⟨e0 ++ [Event.write .HSTS L.SDHOST_HSTS_CLEAR] ++ e1 ++
      [Event.write .HSTS L.SDHOST_HSTS_CLEAR], ?_, ?_⟩
    · rw [MmioWrite32_trace, he1, MmioWrite32_trace, he0]
      simp only [List.append_assoc]
    · exact (((NoIssue.of_polled hp0).andThen (NoIssue.clear _)).andThen
        (NoIssue.of_polled hp1)).andThen (NoIssue.clear _)
  · refine ⟨e0 ++ [Event.write .HSTS L.SDHOST_HSTS_CLEAR] ++
      [Event.write .HSTS L.SDHOST_HSTS_CLEAR], ?_, ?_⟩
    · rw [MmioWrite32_trace, MmioWrite32_trace, he0]
      simp only [List.append_assoc]
    · exact ((NoIssue.of_polled hp0).andThen (NoIssue.clear _)).andThen (NoIssue.clear _)

/-- C6: when `SdhcSendCommand` passes its checks (the previous command is not
busy, the block count is at most 65535, the response type is known) it writes
the argument register with `Argument` and, as the very next action, the command
register with `Index | NEW_FLAG | r | d`, where `r` and `d` are the response
and direction bits of the specification; neither register is written before
that pair nor after it. -/
theorem C6_argument_then_command (D : Device σ) (L : SdHostBits) (Cmd : SD_COMMAND)
    (Argument : Nat) (XfrInfo : Option SD_COMMAND_XFR_INFO) (w : World σ)
    (hidle : (WaitForCmd D L w).1 = EFI_SUCCESS)
    (hcount : blockCountOk XfrInfo = true)
    (hknown : Cmd.ResponseType.known = true) :
    ∃ pre post, (SdhcSendCommand D L Cmd Argument XfrInfo w).2.trace =
        w.trace ++ pre ++
          [Event.write .ARG Argument,
           Event.write .CMD (Cmd.Index ||| L.SDHOST_CMD_NEW_FLAG
             ||| specRespFlag L Cmd.ResponseType ||| specDirFlag L Cmd.TransferDirection)]
          ++ post ∧
      (∀ e ∈ pre, e.writesTo .ARG = false ∧ e.writesTo .CMD = false) ∧
      (∀ e ∈ post, e.writesTo .ARG = false ∧ e.writesTo .CMD = false) := by
  rw [SdhcSendCommand_issue D L Cmd Argument XfrInfo w hidle hcount hknown]
  obtain ⟨pre, hpre, hn⟩ := issueWorld_events D L Cmd w
  obtain ⟨q, hq, hpq⟩ := WaitForCmdResponse_events D L Cmd Argument
    (MmioWrite32 D .CMD (Cmd.Index ||| L.SDHOST_CMD_NEW_FLAG
      ||| specRespFlag L Cmd.ResponseType ||| specDirFlag L Cmd.TransferDirection)
      (MmioWrite32 D .ARG Argument (issueWorld D L Cmd w)))
  refine ⟨pre, q ++ [Event.write .HSTS L.SDHOST_HSTS_CLEAR], ?_, hn,
    (NoIssue.of_polled hpq).andThen (NoIssue.clear _)⟩
  rw [hq, MmioWrite32_trace, MmioWrite32_trace, hpre]
  simp only [List.append_assoc, List.cons_append, List.nil_append]

/-- C6, instance: CMD24 (write direction, response R1) with argument 5 on an
idle device; the command word is `24 | 0x8000 | 0 | 0x80`. -/
theorem C6_argument_then_command_witness :
    (WaitForCmd (constDev 0 0) sampleBits (World.start ())).1 = EFI_SUCCESS ∧
    ∃ pre post, (SdhcSendCommand (constDev 0 0) sampleBits
        ⟨24, SdResponseTypeR1, SdTransferDirectionWrite⟩ 5 (some ⟨1⟩) (World.start ())).2.trace =
        (World.start ()).trace ++ pre ++
          [Event.write .ARG 5,
           Event.write .CMD (24 ||| sampleBits.SDHOST_CMD_NEW_FLAG
             ||| specRespFlag sampleBits SdResponseTypeR1
             ||| specDirFlag sampleBits SdTransferDirectionWrite)]
          ++ post ∧
      (∀ e ∈ pre, e.writesTo .ARG = false ∧ e.writesTo .CMD = false) ∧
      (∀ e ∈ post, e.writesTo .ARG = false ∧ e.writesTo .CMD = false) :=
  ⟨by decide,
    C6_argument_then_command (constDev 0 0) sampleBits
      ⟨24, SdResponseTypeR1, SdTransferDirectionWrite⟩ 5 (some ⟨1⟩) (World.start ())
      (by decide) (by decide) (by decide)⟩

/-! ## The FIFO flush before a read command -/

/-- C7, the code at the failing input: the status register always reads the
data flag and the command register always reads 0. The FIFO flush that CMD17
(read direction) runs before issuance uses up its budget and returns timeout,
the command is issued all the same, and `SdhcSendCommand` returns success: the
status of the flush is overwritten by the status of `WaitForCmdResponse`. -/
theorem C7_flush_timeout_lost :
    (FlushReadFifo (constDev 0 1) sampleBits
      (MmioWrite32 (constDev 0 1) .HSTS sampleBits.SDHOST_HSTS_CLEAR
        (WaitForCmd (constDev 0 1) sampleBits (World.start ())).2)).1 = EFI_TIMEOUT ∧
    (SdhcSendCommand (constDev 0 1) sampleBits
      ⟨17, SdResponseTypeR1, SdTransferDirectionRead⟩ 0 none (World.start ())).1
        = EFI_SUCCESS := by
  have hstuck : ∀ s, (constDev 0 1).sample .HSTS s &&& sampleBits.SDHOST_HSTS_DATA_FLAG ≠ 0 :=
    fun s => by rw [constDev_sample_HSTS]; decide
  constructor
  · rw [FlushReadFifo_status, if_pos (flushLoop_stuck _ _ hstuck _ _)]
  · rw [SdhcSendCommand_issue (constDev 0 1) sampleBits _ 0 none (World.start ())
      (by decide) (by decide) (by decide), WaitForCmdResponse_status]
    rw [if_neg (by decide)]
    have hidle : ∀ w' : World Unit, awaitCmd (constDev 0 1) sampleBits w' =
        ⟨USDHC_POLL_RETRY_COUNT, 0, (MmioRead32 (constDev 0 1) .CMD w').2⟩ := by
      intro w'
      rw [awaitCmd_idle (constDev 0 1) sampleBits w' (by rw [constDev_sample_CMD]; decide)]
      rfl
    rw [hidle]
    simp only [constDev_sample_HSTS]
    decide

/-! ## The retry budget -/

/-- C8: (a) if every sample of the command register has NEW set and FAIL
clear, `WaitForCmdResponse` for a command other than (7, 0) returns timeout and
its trace holds exactly 1,000,000 stalls, each of 20 microseconds, one per
iteration of the loop; (b) if every sample of the status register has the data
flag set, `FlushReadFifo` returns timeout after exactly 1,000,000 stalls of 20
microseconds and 1,000,000 reads of the data register; (c) whenever the poll
loop of `WaitForCmdResponse` ends with its counter at 0, and (d) whenever
`FlushReadFifo` returns timeout, the loop made exactly 1,000,000 iterations,
never fewer. -/
theorem C8_exact_retry_budget (D : Device σ) (L : SdHostBits) (Cmd : SD_COMMAND)
    (Argument : Nat) (w : World σ) :
    (¬(Cmd.Index = 7 ∧ Argument = 0) →
      (∀ s, D.sample .CMD s &&& L.SDHOST_CMD_NEW_FLAG ≠ 0 ∧
        D.sample .CMD s &&& L.SDHOST_CMD_FAIL_FLAG = 0) →
      (WaitForCmdResponse D L Cmd Argument w).1 = EFI_TIMEOUT ∧
      ∃ ev, (WaitForCmdResponse D L Cmd Argument w).2.trace = w.trace ++ ev ∧
        stalls ev = List.replicate 1000000 20) ∧
    ((∀ s, D.sample .HSTS s &&& L.SDHOST_HSTS_DATA_FLAG ≠ 0) →
      (FlushReadFifo D L w).1 = EFI_TIMEOUT ∧
      ∃ ev, (FlushReadFifo D L w).2.trace = w.trace ++ ev ∧
        stalls ev = List.replicate 1000000 20 ∧ readCount .DATA ev = 1000000) ∧
    ((awaitCmd D L w).Retry = 0 →
      ∃ ev, (WaitForCmdResponse D L Cmd Argument w).2.trace = w.trace ++ ev ∧
        stalls ev = List.replicate 1000000 20) ∧
    ((FlushReadFifo D L w).1 = EFI_TIMEOUT →
      ∃ ev, (FlushReadFifo D L w).2.trace = w.trace ++ ev ∧
        stalls ev = List.replicate 1000000 20 ∧ readCount .DATA ev = 1000000) := by
  have wait : (awaitCmd D L w).Retry = 0 →
      ∃ ev, (WaitForCmdResponse D L Cmd Argument w).2.trace = w.trace ++ ev ∧
        stalls ev = List.replicate 1000000 20 := by
    intro h0
    obtain ⟨pre, hpre, hp⟩ := WaitForCmdResponse_events D L Cmd Argument w
    refine ⟨pre ++ [Event.write .HSTS L.SDHOST_HSTS_CLEAR], by rw [hpre, List.append_assoc], ?_⟩
    have hw : stalls [Event.write .HSTS L.SDHOST_HSTS_CLEAR] = [] := rfl
    rw [stalls_append, hp.stalls_eq, h0, hw, List.append_nil, Nat.sub_zero]
    rfl
  have flush : (flushLoop D L USDHC_POLL_RETRY_COUNT w).1 = 0 →
      ∃ ev, (FlushReadFifo D L w).2.trace = w.trace ++ ev ∧
        stalls ev = List.replicate 1000000 20 ∧ readCount .DATA ev = 1000000 := by
    intro h0
    obtain ⟨ev, hev, hp, hc⟩ := FlushReadFifo_events D L w
    refine ⟨ev, hev, ?_, ?_⟩
    · rw [hp.stalls_eq, h0, Nat.sub_zero]
      rfl
    · rw [hc, h0, Nat.sub_zero]
      rfl
  refine ⟨?_, ?_, wait, ?_⟩
  · intro hq hbusy
    have h0 : (awaitCmd D L w).Retry = 0 := awaitCmd_busy D L (fun s => (hbusy s).1) w
    have hf : (awaitCmd D L w).CmdReg &&& L.SDHOST_CMD_FAIL_FLAG = 0 :=
      awaitCmd_CmdReg D L (fun c => c &&& L.SDHOST_CMD_FAIL_FLAG = 0) (fun s => (hbusy s).2) w
    refine ⟨?_, wait h0⟩
    rw [WaitForCmdResponse_status, if_neg hq, if_neg (by simp [hf]), if_pos h0]
  · intro hstuck
    have h0 := flushLoop_stuck D L hstuck USDHC_POLL_RETRY_COUNT w
    exact ⟨by rw [FlushReadFifo_status, if_pos h0], flush h0⟩
  · intro ht
    apply flush
    rw [FlushReadFifo_status] at ht
    by_contra hne
    rw [if_neg hne] at ht
    exact absurd ht (by decide)

/-- C8, instance: a device whose command register always reads NEW and whose
status register always reads the data flag; CMD17 times out in
`WaitForCmdResponse` and the flush times out, each after 1,000,000 stalls. -/
theorem C8_exact_retry_budget_witness :
    ((WaitForCmdResponse (constDev 0x8000 1) sampleBits
        ⟨17, SdResponseTypeR1, SdTransferDirectionRead⟩ 0 (World.start ())).1 = EFI_TIMEOUT ∧
      ∃ ev, (WaitForCmdResponse (constDev 0x8000 1) sampleBits
          ⟨17, SdResponseTypeR1, SdTransferDirectionRead⟩ 0 (World.start ())).2.trace
            = (World.start ()).trace ++ ev ∧
        stalls ev = List.replicate 1000000 20) ∧
    ((FlushReadFifo (constDev 0x8000 1) sampleBits (World.start ())).1 = EFI_TIMEOUT ∧
      ∃ ev, (FlushReadFifo (constDev 0x8000 1) sampleBits (World.start ())).2.trace
            = (World.start ()).trace ++ ev ∧
        stalls ev = List.replicate 1000000 20 ∧ readCount .DATA ev = 1000000) :=
  ⟨(C8_exact_retry_budget (constDev 0x8000 1) sampleBits
      ⟨17, SdResponseTypeR1, SdTransferDirectionRead⟩ 0 (World.start ())).1 (by decide)
      (fun s => by rw [constDev_sample_CMD]; decide),
   (C8_exact_retry_budget (constDev 0x8000 1) sampleBits
      ⟨17, SdResponseTypeR1, SdTransferDirectionRead⟩ 0 (World.start ())).2.1
      (fun s => by rw [constDev_sample_HSTS]; decide)⟩

/-! ## Response decoding -/

/-- The byte loop of the long response moves every byte of its range one
place down and leaves the rest of the memory alone. -/
theorem shiftLoop_apply (fuel i : Nat) (B : Mem) (a : Nat) :
    shiftLoop fuel i B a = if i ≤ a ∧ a < i + fuel then B (a + 1) % 256 else B a := by
  induction fuel generalizing i B with
  | zero =>
    rw [shiftLoop, if_neg (by omega)]
  | succ n ih =>
    rw [shiftLoop, ih]
    by_cases h1 : i + 1 ≤ a ∧ a < i + 1 + n
    · rw [if_pos h1, if_pos (by omega)]
      simp only [storeByte]
      rw [if_neg (by omega)]
    · rw [if_neg h1]
      by_cases h2 : a = i
      · rw [if_pos (by omega)]
        simp only [storeByte]
        rw [if_pos h2, h2]
      · rw [if_neg (by omega)]
        simp only [storeByte]
        rw [if_neg h2]

/-- A stored 32-bit word is read back unchanged. -/
theorem loadWord_storeWord (B : Mem) (v : Nat) (hv : v < 4294967296) :
    loadWord (storeWord B 0 v) 0 = v := by
  simp only [loadWord, storeWord]
  norm_num
  omega

theorem sample_lt (D : Device σ) (r : Reg) (s : σ) : D.sample r s < 4294967296 :=
  Nat.mod_lt _ (by decide)

/-- C9: `SdhcReceiveResponse` with a buffer. For type None no register is
read and the buffer is unchanged. For R1, R1B, R3, R4, R5, R5B and R6 exactly
one word is read, from RSP0; `Buffer[0]` holds it and every byte from offset 4
on is unchanged. For R2 the four words RSP0 to RSP3 are read in this order and
the 16 bytes returned are the little-endian byte image `b` of the four words
moved down by one byte, `b'[i] = b[i + 1]` for `i < 15`, with `b'[15] = 0`,
that is the 128-bit value shifted right by 8 bits; the bytes from offset 16 on
are unchanged. The result is success each time. -/
theorem C9_response_decoding (D : Device σ) (Cmd : SD_COMMAND) (Buffer : Mem) (w : World σ) :
    (Cmd.ResponseType = SdResponseTypeNone →
      SdhcReceiveResponse D Cmd (some Buffer) w = (EFI_SUCCESS, some Buffer, w)) ∧
    (Cmd.ResponseType ∈ shortResponseTypes →
      ∃ B', SdhcReceiveResponse D Cmd (some Buffer) w =
          (EFI_SUCCESS, some B', (MmioRead32 D .RSP0 w).2) ∧
        (MmioRead32 D .RSP0 w).2.trace = w.trace ++ [Event.read .RSP0 (D.sample .RSP0 w.dev)] ∧
        loadWord B' 0 = D.sample .RSP0 w.dev ∧
        ∀ a, 4 ≤ a → B' a = Buffer a) ∧
    (Cmd.ResponseType = SdResponseTypeR2 →
      let r0 := MmioRead32 D .RSP0 w
      let r1 := MmioRead32 D .RSP1 r0.2
      let r2 := MmioRead32 D .RSP2 r1.2
      let r3 := MmioRead32 D .RSP3 r2.2
      ∃ B', SdhcReceiveResponse D Cmd (some Buffer) w = (EFI_SUCCESS, some B', r3.2) ∧
        r3.2.trace = w.trace ++ [Event.read .RSP0 r0.1, Event.read .RSP1 r1.1,
          Event.read .RSP2 r2.1, Event.read .RSP3 r3.1] ∧
        (∀ i, i < 15 → B' i = specByteImage r0.1 r1.1 r2.1 r3.1 (i + 1)) ∧
        B' 15 = 0 ∧
        leValue B' 16 = (r0.1 + 2 ^ 32 * r1.1 + 2 ^ 64 * r2.1 + 2 ^ 96 * r3.1) / 2 ^ 8 ∧
        ∀ a, 16 ≤ a → B' a = Buffer a) := by
  refine ⟨?_, ?_, ?_⟩
  · intro h
    simp only [SdhcReceiveResponse, h]
  · intro h
    refine ⟨storeWord Buffer 0 (D.sample .RSP0 w.dev), ?_, rfl,
      loadWord_storeWord _ _ (sample_lt D _ _), ?_⟩
    · simp only [shortResponseTypes, List.mem_cons, List.mem_singleton, List.mem_nil_iff,
        or_false] at h
      rcases h with h | h | h | h | h | h | h <;>
        simp only [SdhcReceiveResponse, h, MmioRead32_fst]
    · intro a ha
      simp only [storeWord]
      rw [if_neg (by omega)]
  · intro h
    intro r0 r1 r2 r3
    have bytes : ∀ i, i < 15 →
        storeByte (shiftLoop 15 0 (storeWord (storeWord (storeWord
          (storeWord Buffer 0 r0.1) 1 r1.1) 2 r2.1) 3 r3.1)) 15 0 i
          = specByteImage r0.1 r1.1 r2.1 r3.1 (i + 1) := by
      intro i hi
      simp only [storeByte]
      rw [if_neg (by omega), shiftLoop_apply, if_pos (by omega)]
      interval_cases i <;> simp [storeWord, specByteImage]
    have top : storeByte (shiftLoop 15 0 (storeWord (storeWord (storeWord
          (storeWord Buffer 0 r0.1) 1 r1.1) 2 r2.1) 3 r3.1)) 15 0 15 = 0 := by
      simp [storeByte]
    refine ⟨storeByte (shiftLoop 15 0 (storeWord (storeWord (storeWord
      (storeWord Buffer 0 r0.1) 1 r1.1) 2 r2.1) 3 r3.1)) 15 0, ?_, ?_, bytes, top, ?_, ?_⟩
    · simp only [SdhcReceiveResponse, h, r3, r2, r1, r0]
    · simp only [r3, r2, r1, r0, MmioRead32_trace, List.append_assoc, List.cons_append,
        List.nil_append, MmioRead32_fst, MmioRead32_dev]
    · have h0 : r0.1 < 4294967296 := sample_lt D _ _
      have h1 : r1.1 < 4294967296 := sample_lt D _ _
      have h2 : r2.1 < 4294967296 := sample_lt D _ _
      have h3 : r3.1 < 4294967296 := sample_lt D _ _
      simp only [leValue]
      rw [top, bytes 0 (by omega), bytes 1 (by omega), bytes 2 (by omega), bytes 3 (by omega),
        bytes 4 (by omega), bytes 5 (by omega), bytes 6 (by omega), bytes 7 (by omega),
        bytes 8 (by omega), bytes 9 (by omega), bytes 10 (by omega), bytes 11 (by omega),
        bytes 12 (by omega), bytes 13 (by omega), bytes 14 (by omega)]
      generalize r0.1 = a at h0
      generalize r1.1 = b at h1
      generalize r2.1 = c at h2
      generalize r3.1 = d at h3
      simp only [specByteImage]
      norm_num
      omega
    · intro a ha
      simp only [storeByte]
      rw [if_neg (by omega), shiftLoop_apply, if_neg (by omega)]
      simp only [storeWord]
      rw [if_neg (by omega), if_neg (by omega), if_neg (by omega), if_neg (by omega)]

/-- C9, instance: response type R6 is one of the short types; on a device
whose registers hold what was last written, with RSP0 holding `0x04030201`,
the first word of the buffer becomes `0x04030201`. -/
theorem C9_response_decoding_witness :
    SdResponseTypeR6 ∈ shortResponseTypes ∧
    ∃ B', SdhcReceiveResponse latchDev ⟨3, SdResponseTypeR6, Undefined 0⟩ (some sevens)
          (World.start rspRegs) =
          (EFI_SUCCESS, some B', (MmioRead32 latchDev .RSP0 (World.start rspRegs)).2) ∧
        (MmioRead32 latchDev .RSP0 (World.start rspRegs)).2.trace =
          (World.start rspRegs).trace ++
            [Event.read .RSP0 (latchDev.sample .RSP0 (World.start rspRegs).dev)] ∧
        loadWord B' 0 = latchDev.sample .RSP0 (World.start rspRegs).dev ∧
        ∀ a, 4 ≤ a → B' a = sevens a :=
  ⟨by decide,
    (C9_response_decoding latchDev ⟨3, SdResponseTypeR6, Undefined 0⟩ sevens
      (World.start rspRegs)).2.1 (by decide)⟩

/-- The long response on a register file whose response registers hold the
bytes 1 to 16: the buffer receives the bytes 2 to 16 and a zero, and the bytes
behind the 16th keep their value. -/
theorem SdhcReceiveResponse_long_example :
    ((SdhcReceiveResponse latchDev ⟨2, SdResponseTypeR2, Undefined 0⟩ (some sevens)
      (World.start rspRegs)).2.1.map (fun B => (List.range 18).map B)) =
      some [2, 3, 4, 5, 6, 7, 8, 9, 10, 11, 12, 13, 14, 15, 16, 0, 7, 7] := by
  decide

/-- C10: for a response type that is none of None, R1, R1B, R2, R3, R4, R5,
R5B, R6, `SdhcReceiveResponse` returns invalid parameter, reads no register
and leaves the buffer of the caller as it was; with a null buffer it returns
invalid parameter without any register access, whatever the response type. -/
theorem C10_invalid_response_type (D : Device σ) (Cmd : SD_COMMAND) (Buffer : Mem)
    (w : World σ) :
    (Cmd.ResponseType ∉ SdResponseTypeNone :: SdResponseTypeR2 :: shortResponseTypes →
      SdhcReceiveResponse D Cmd (some Buffer) w = (EFI_INVALID_PARAMETER, some Buffer, w)) ∧
    SdhcReceiveResponse D Cmd none w = (EFI_INVALID_PARAMETER, none, w) := by
  refine ⟨?_, rfl⟩
  intro h
  cases hr : Cmd.ResponseType <;> rw [hr] at h <;>
    simp [shortResponseTypes] at h
  simp only [SdhcReceiveResponse, hr]

/-- C10, instance: the response type value 42 is none of the named ones. -/
theorem C10_invalid_response_type_witness :
    Unknown 42 ∉ SdResponseTypeNone :: SdResponseTypeR2 :: shortResponseTypes ∧
    SdhcReceiveResponse (constDev 0 0) ⟨3, Unknown 42, Undefined 0⟩ (some sevens)
      (World.start ()) = (EFI_INVALID_PARAMETER, some sevens, World.start ()) :=
  ⟨by decide,
    (C10_invalid_response_type (constDev 0 0) ⟨3, Unknown 42, Undefined 0⟩ sevens
      (World.start ())).1 (by decide)⟩

/-! ## Software reset -/

/-- The register dump leaves a stretch of reads. -/
theorem DumpState_reads (D : Device σ) (L : SdHostBits) (w : World σ) :
    ∃ dump, (DumpState D L w).trace = w.trace ++ dump ∧ ∀ e ∈ dump, e.isWrite = false := by
  obtain ⟨ev, h, hp⟩ := DumpState_events D L w
  exact ⟨ev, h, hp.noWrite⟩

/-- The trace of the full reset, action by action, after the register dump. -/
theorem SdhcSoftwareReset_all_trace (D : Device σ) (L : SdHostBits) (w : World σ) :
    ∃ E, (SdhcSoftwareReset D L SdhcResetTypeAll w).2.trace =
      (DumpState D L w).trace ++
        [Event.write .VDD 0, Event.write .CMD 0, Event.write .ARG 0, Event.write .CDIV 0,
         Event.write .HSTS L.SDHOST_HSTS_CLEAR, Event.write .HCFG 0, Event.write .HBCT 0,
         Event.write .HBLC 0, Event.stall STALL_TO_STABILIZE_US, Event.write .VDD 1,
         Event.stall STALL_TO_STABILIZE_US,
         Event.write .HCFG (L.SDHOST_HCFG_WIDE_INT_BUS ||| L.SDHOST_HCFG_SLOW_CARD),
         Event.read .EDM E, Event.write .EDM ((E &&& 0xFF) ||| 0x10800),
         Event.write .HBCT 512] := by
  simp only [SdhcSoftwareReset, MmioWrite32_trace, Stall_trace, MmioRead32_trace,
    MmioRead32_fst, List.append_assoc, List.cons_append, List.nil_append, Nat.zero_or]
  exact ⟨_, rfl⟩

/-- Reads leave the registers of the latch model as they are. -/
theorem latchDev_readAll (regs : List Reg) (w : World (Reg → Nat)) :
    (regs.foldl (fun w r => (MmioRead32 latchDev r w).2) w).dev = w.dev := by
  induction regs generalizing w with
  | nil => rfl
  | cons r t ih =>
    rw [List.foldl_cons, ih]
    rfl

theorem latchDev_DumpState (L : SdHostBits) (w : World (Reg → Nat)) :
    (DumpState latchDev L w).dev = w.dev := by
  unfold DumpState
  split
  · exact latchDev_readAll dumpRegs w
  · rfl

/-- C13: over the register model in which a register holds the last value
written, for every starting register state the full reset returns success and
ends with `VDD = 1`, `CMD = 0`, `ARG = 0`, `CDIV = 0`,
`HCFG = WIDE_INT_BUS | SLOW_CARD`, `HBCT = 512` and `HBLC = 0`. On every
device the writes come in this order: `VDD` is written 0 before any other
register, then `CMD`, `ARG`, `CDIV`, `HSTS`, `HCFG`, `HBCT` and `HBLC` are
cleared, and only then, after a stall, `VDD` is written 1. -/
theorem C13_full_reset_terminal_state (D : Device σ) (L : SdHostBits) (w : World σ)
    (s : Reg → Nat) (t : List Event) :
    ((SdhcSoftwareReset latchDev L SdhcResetTypeAll ⟨s, t⟩).1 = EFI_SUCCESS ∧
      (SdhcSoftwareReset latchDev L SdhcResetTypeAll ⟨s, t⟩).2.dev .VDD = 1 ∧
      (SdhcSoftwareReset latchDev L SdhcResetTypeAll ⟨s, t⟩).2.dev .CMD = 0 ∧
      (SdhcSoftwareReset latchDev L SdhcResetTypeAll ⟨s, t⟩).2.dev .ARG = 0 ∧
      (SdhcSoftwareReset latchDev L SdhcResetTypeAll ⟨s, t⟩).2.dev .CDIV = 0 ∧
      (SdhcSoftwareReset latchDev L SdhcResetTypeAll ⟨s, t⟩).2.dev .HCFG =
        L.SDHOST_HCFG_WIDE_INT_BUS ||| L.SDHOST_HCFG_SLOW_CARD ∧
      (SdhcSoftwareReset latchDev L SdhcResetTypeAll ⟨s, t⟩).2.dev .HBCT = 512 ∧
      (SdhcSoftwareReset latchDev L SdhcResetTypeAll ⟨s, t⟩).2.dev .HBLC = 0) ∧
    (SdhcSoftwareReset D L SdhcResetTypeAll w).1 = EFI_SUCCESS ∧
    ∃ dump E, (∀ e ∈ dump, e.isWrite = false) ∧
      (SdhcSoftwareReset D L SdhcResetTypeAll w).2.trace =
        w.trace ++ dump ++
          [Event.write .VDD 0, Event.write .CMD 0, Event.write .ARG 0, Event.write .CDIV 0,
           Event.write .HSTS L.SDHOST_HSTS_CLEAR, Event.write .HCFG 0, Event.write .HBCT 0,
           Event.write .HBLC 0, Event.stall 10000, Event.write .VDD 1, Event.stall 10000,
           Event.write .HCFG (L.SDHOST_HCFG_WIDE_INT_BUS ||| L.SDHOST_HCFG_SLOW_CARD),
           Event.read .EDM E, Event.write .EDM ((E &&& 0xFF) ||| 0x10800),
           Event.write .HBCT 512] := by
  refine ⟨?_, rfl, ?_⟩
  · simp [SdhcSoftwareReset, MmioWrite32, Stall, MmioRead32, latchDev]
  · obtain ⟨dump, hd, hw⟩ := DumpState_reads D L w
    obtain ⟨E, hE⟩ := SdhcSoftwareReset_all_trace D L w
    exact ⟨dump, E, hw, by rw [hE, hd]; rfl⟩

/-- C14: the command-only reset returns success and does exactly three things,
in this order: it writes 0 to `CMD`, 0 to `ARG` and `SDHOST_HSTS_CLEAR` to
`HSTS`; no other register is touched and there is no stall. Over the register
model in which a register holds the last value written, for every starting
register state, two resets in a row end in the same register state as one. -/
theorem C14_cmd_reset_idempotent (D : Device σ) (L : SdHostBits) (w : World σ)
    (s : Reg → Nat) (t : List Event) :
    (SdhcSoftwareReset D L SdhcResetTypeCmd w).1 = EFI_SUCCESS ∧
    (SdhcSoftwareReset D L SdhcResetTypeCmd w).2.trace =
      w.trace ++ [Event.write .CMD 0, Event.write .ARG 0,
        Event.write .HSTS L.SDHOST_HSTS_CLEAR] ∧
    (SdhcSoftwareReset latchDev L SdhcResetTypeCmd
      (SdhcSoftwareReset latchDev L SdhcResetTypeCmd ⟨s, t⟩).2).2.dev =
      (SdhcSoftwareReset latchDev L SdhcResetTypeCmd ⟨s, t⟩).2.dev := by
  refine ⟨rfl, ?_, ?_⟩
  · simp only [SdhcSoftwareReset, MmioWrite32_trace, List.append_assoc, List.cons_append,
      List.nil_append]
  · funext r
    cases r <;> simp [SdhcSoftwareReset, MmioWrite32, latchDev]

/-- C18, as stated, fails: with `0x1FF` in the calibration register the full
reset writes `0x108FF` to it, the low byte kept and `0x10800` or-ed in, and not
`(0x1FF & ~0xFF) | 0x10800 = 0x10900`. -/
theorem C18_counterexample :
    (SdhcSoftwareReset latchDev sampleBits SdhcResetTypeAll (World.start edmRegs)).2.dev .EDM
      = 0x108FF ∧
    ((0x1FF &&& not32 0xFF) ||| 0x10800) = 0x10900 := by
  decide

/-- C18, amended: the full reset reads the calibration register `EDM` once and
writes back, as its next action, the value read with everything but its low
byte cleared and `0x10800` or-ed in, `(E & 0xFF) | 0x10800`; over the register
model in which a register holds the last value written this is the final value
of `EDM`, for every prior value of it. -/
theorem C18_edm_patch (D : Device σ) (L : SdHostBits) (w : World σ)
    (s : Reg → Nat) (t : List Event) :
    (∃ pre E post, (SdhcSoftwareReset D L SdhcResetTypeAll w).2.trace =
        w.trace ++ pre ++ [Event.read .EDM E, Event.write .EDM ((E &&& 0xFF) ||| 0x10800)]
          ++ post ∧
      (∀ e ∈ pre, e.writesTo .EDM = false) ∧ (∀ e ∈ post, e.writesTo .EDM = false)) ∧
    (SdhcSoftwareReset latchDev L SdhcResetTypeAll ⟨s, t⟩).2.dev .EDM =
      ((s .EDM % 4294967296) &&& 0xFF) ||| 0x10800 := by
  constructor
  · obtain ⟨dump, hd, hw⟩ := DumpState_reads D L w
    obtain ⟨E, hE⟩ := SdhcSoftwareReset_all_trace D L w
    refine ⟨dump ++ [Event.write .VDD 0, Event.write .CMD 0, Event.write .ARG 0,
      Event.write .CDIV 0, Event.write .HSTS L.SDHOST_HSTS_CLEAR, Event.write .HCFG 0,
      Event.write .HBCT 0, Event.write .HBLC 0, Event.stall STALL_TO_STABILIZE_US,
      Event.write .VDD 1, Event.stall STALL_TO_STABILIZE_US,
      Event.write .HCFG (L.SDHOST_HCFG_WIDE_INT_BUS ||| L.SDHOST_HCFG_SLOW_CARD)], E,
      [Event.write .HBCT 512], ?_, ?_, ?_⟩
    · rw [hE, hd]
      simp only [List.append_assoc, List.cons_append, List.nil_append]
    · intro e he
      rcases List.mem_append.mp he with h | h
      · have := hw e h
        cases e <;> simp_all [Event.isWrite, Event.writesTo]
      · simp only [List.mem_cons, List.mem_singleton, List.mem_nil_iff, or_false] at h
        rcases h with h | h | h | h | h | h | h | h | h | h | h | h <;>
          subst h <;> simp [Event.writesTo]
    · intro e he
      simp only [List.mem_singleton] at he
      subst he
      simp [Event.writesTo]
  · have hdump := latchDev_DumpState L ⟨s, t⟩
    simp only [SdhcSoftwareReset, MmioWrite32, Stall, MmioRead32, Device.sample, latchDev] at hdump ⊢
    simp [hdump]

/-- The bits of the 32-bit complement. -/
theorem not32_testBit (x k : Nat) : (not32 x).testBit k = (decide (k < 32) && !x.testBit k) := by
  have h : x % 4294967296 < 2 ^ 32 := Nat.mod_lt _ (by norm_num)
  have := Nat.testBit_two_pow_sub_succ h k
  have e : (2 : Nat) ^ 32 - (x % 4294967296 + 1) = not32 x := by
    simp only [not32]
    omega
  rw [e] at this
  rw [this]
  have e2 : (4294967296 : Nat) = 2 ^ 32 := by norm_num
  rw [e2, Nat.testBit_mod_two_pow]
  by_cases hk : k < 32 <;> simp [hk]

/-- A register value has no bit above bit 31. -/
theorem sample_testBit_high (D : Device σ) (r : Reg) (s : σ) (k : Nat) (hk : 32 ≤ k) :
    (D.sample r s).testBit k = false := by
  apply Nat.testBit_lt_two_pow
  calc D.sample r s < 2 ^ 32 := sample_lt D r s
    _ ≤ 2 ^ k := Nat.pow_le_pow_right (by norm_num) hk

/-! ## Bus width -/

/-- C17: `SdhcSetBusWidth` returns invalid parameter for the 8-bit width and
for every value other than 1-bit and 4-bit; it has then only read `HCFG` and
written no register. For 1-bit it writes `HCFG`, and nothing else, with the
value read with the `WIDE_EXT_BUS` bits cleared, for 4-bit with these bits
set; bit by bit, every other bit of `HCFG` keeps its value. Both return
success. -/
theorem C17_bus_width (D : Device σ) (L : SdHostBits) (w : World σ) :
    (SdhcSetBusWidth D L SdBusWidth8Bit w = (EFI_INVALID_PARAMETER, (MmioRead32 D .HCFG w).2) ∧
      (∀ raw, SdhcSetBusWidth D L (Invalid raw) w =
        (EFI_INVALID_PARAMETER, (MmioRead32 D .HCFG w).2)) ∧
      (MmioRead32 D .HCFG w).2.trace = w.trace ++ [Event.read .HCFG (D.sample .HCFG w.dev)]) ∧
    ((SdhcSetBusWidth D L SdBusWidth1Bit w).1 = EFI_SUCCESS ∧
      (SdhcSetBusWidth D L SdBusWidth1Bit w).2.trace =
        w.trace ++ [Event.read .HCFG (D.sample .HCFG w.dev),
          Event.write .HCFG (D.sample .HCFG w.dev &&& not32 L.SDHOST_HCFG_WIDE_EXT_BUS)] ∧
      ∀ k, (D.sample .HCFG w.dev &&& not32 L.SDHOST_HCFG_WIDE_EXT_BUS).testBit k =
        ((D.sample .HCFG w.dev).testBit k && !L.SDHOST_HCFG_WIDE_EXT_BUS.testBit k)) ∧
    ((SdhcSetBusWidth D L SdBusWidth4Bit w).1 = EFI_SUCCESS ∧
      (SdhcSetBusWidth D L SdBusWidth4Bit w).2.trace =
        w.trace ++ [Event.read .HCFG (D.sample .HCFG w.dev),
          Event.write .HCFG (D.sample .HCFG w.dev ||| L.SDHOST_HCFG_WIDE_EXT_BUS)] ∧
      ∀ k, (D.sample .HCFG w.dev ||| L.SDHOST_HCFG_WIDE_EXT_BUS).testBit k =
        ((D.sample .HCFG w.dev).testBit k || L.SDHOST_HCFG_WIDE_EXT_BUS.testBit k)) := by
  refine ⟨⟨rfl, fun _ => rfl, rfl⟩, ⟨rfl, ?_, ?_⟩, ⟨rfl, ?_, ?_⟩⟩
  · simp only [SdhcSetBusWidth, MmioWrite32_trace, MmioRead32_trace, MmioRead32_fst,
      List.append_assoc, List.cons_append, List.nil_append]
  · intro k
    rw [Nat.testBit_and, not32_testBit]
    by_cases hk : k < 32
    · simp [hk]
    · rw [sample_testBit_high D _ _ k (by omega)]
      simp
  · simp only [SdhcSetBusWidth, MmioWrite32_trace, MmioRead32_trace, MmioRead32_fst,
      List.append_assoc, List.cons_append, List.nil_append]
  · intro k
    rw [Nat.testBit_or]

/-! ## Clock divider -/

/-- Without wrap-around the divider is the quotient of the source. -/
theorem ClockDiv_eq (core target : Nat) (ht : 0 < target) (hc : 2 * target ≤ core)
    (h32 : core < 4294967296) :
    ClockDiv core target = (core - 2 * target) / target := by
  unfold ClockDiv
  rw [Nat.mod_eq_of_lt (by omega : 2 * target < 4294967296)]
  have : (core + 4294967296 - 2 * target) % 4294967296 = core - 2 * target := by omega
  rw [this]

/-- The divider plus 2 is the integer ratio of the two frequencies. -/
theorem ClockDiv_add_two (core target : Nat) (ht : 0 < target) (hc : 2 * target ≤ core)
    (h32 : core < 4294967296) :
    ClockDiv core target + 2 = core / target := by
  rw [ClockDiv_eq core target ht hc h32]
  have h1 : (core - target * 2) / target = core / target - 2 := Nat.sub_mul_div core target 2 (by omega)
  have h2 : 2 ≤ core / target := (Nat.le_div_iff_mul_le ht).mpr (by omega)
  rw [Nat.mul_comm] at h1
  omega

/-- The sum `ClockDiv + 2` does not wrap. -/
theorem ClockDiv_add_two_lt (core target : Nat) (ht : 0 < target) (hc : 2 * target ≤ core)
    (h32 : core < 4294967296) :
    ClockDiv core target + 2 < 4294967296 := by
  rw [ClockDiv_add_two core target ht hc h32]
  exact lt_of_le_of_lt (Nat.div_le_self _ _) h32

/-- C15: when the core-clock query succeeds with a 32-bit frequency `core` and
the target satisfies `0 < target` and `2 * target ≤ core`, `SdhcSetClock`
writes `CDIV` with `d = (core - 2 * target) / target`, then `TOUT` with
`core / (d + 2)`, and returns success; with `core = 250000000` and
`target = 25000000` it writes `CDIV = 8` and `TOUT = 25000000`. -/
theorem C15_clock_divider (D : Device σ) (w : World σ) (core target : Nat)
    (ht : 0 < target) (hc : 2 * target ≤ core) (h32 : core < 4294967296) :
    SdhcSetClock D (EFI_SUCCESS, core) target w =
      some (EFI_SUCCESS,
        MmioWrite32 D .TOUT (core / ((core - 2 * target) / target + 2))
          (MmioWrite32 D .CDIV ((core - 2 * target) / target) w)) ∧
    SdhcSetClock D (EFI_SUCCESS, 250000000) 25000000 w =
      some (EFI_SUCCESS, MmioWrite32 D .TOUT 25000000 (MmioWrite32 D .CDIV 8 w)) := by
  have key : ∀ c t : Nat, 0 < t → 2 * t ≤ c → c < 4294967296 →
      SdhcSetClock D (EFI_SUCCESS, c) t w =
        some (EFI_SUCCESS,
          MmioWrite32 D .TOUT (c / ((c - 2 * t) / t + 2))
            (MmioWrite32 D .CDIV ((c - 2 * t) / t) w)) := by
    intro c t ht hc h32
    have h2 := ClockDiv_add_two_lt c t ht hc h32
    have hne : ¬ (ClockDiv c t + 2) % 4294967296 = 0 := by
      rw [Nat.mod_eq_of_lt h2]
      omega
    simp only [SdhcSetClock, EFI_ERROR]
    rw [if_neg (by simp), Nat.mod_eq_of_lt h32, if_neg (by omega), if_neg hne]
    simp only [ActualSdFreqHz]
    rw [Nat.mod_eq_of_lt h2, ClockDiv_eq c t ht hc h32]
  refine ⟨key core target ht hc h32, ?_⟩
  exact key 250000000 25000000 (by norm_num) (by norm_num) (by norm_num)

/-- C15, instance: a core clock of 100 MHz and a target of 25 MHz. -/
theorem C15_clock_divider_witness :
    (0 < 25000000 ∧ 2 * 25000000 ≤ 100000000 ∧ 100000000 < 4294967296) ∧
    SdhcSetClock latchDev (EFI_SUCCESS, 100000000) 25000000 (World.start edmRegs) =
      some (EFI_SUCCESS,
        MmioWrite32 latchDev .TOUT (100000000 / ((100000000 - 2 * 25000000) / 25000000 + 2))
          (MmioWrite32 latchDev .CDIV ((100000000 - 2 * 25000000) / 25000000)
            (World.start edmRegs))) :=
  ⟨by decide,
    (C15_clock_divider latchDev (World.start edmRegs) 100000000 25000000
      (by decide) (by decide) (by decide)).1⟩

/-- The run of `SdhcSetClock` on a successful core-clock query, in terms of the
divider `ClockDiv` of the code: `CDIV` receives `ClockDiv core target`, then
`TOUT` receives `core / (ClockDiv core target + 2)`. -/
theorem SdhcSetClock_writes (D : Device σ) (w : World σ) (core target : Nat)
    (ht : 0 < target) (hc : 2 * target ≤ core) (h32 : core < 4294967296) :
    SdhcSetClock D (EFI_SUCCESS, core) target w =
      some (EFI_SUCCESS,
        MmioWrite32 D .TOUT (core / (ClockDiv core target + 2))
          (MmioWrite32 D .CDIV (ClockDiv core target) w)) := by
  have h2 := ClockDiv_add_two_lt core target ht hc h32
  have hne : ¬ (ClockDiv core target + 2) % 4294967296 = 0 := by
    rw [Nat.mod_eq_of_lt h2]
    omega
  simp only [SdhcSetClock, EFI_ERROR]
  rw [if_neg (by simp), Nat.mod_eq_of_lt h32, if_neg (by omega), if_neg hne]
  simp only [ActualSdFreqHz]
  rw [Nat.mod_eq_of_lt h2]

/-- C16: for a 32-bit `core` and a target with `0 < target` and
`2 * target ≤ core`, `SdhcSetClock` on a successful core-clock query returns
success after appending exactly two register writes, `CDIV` with the divider
`d = ClockDiv core target` and then `TOUT` with the realized frequency
`core / (d + 2)`; this `d` satisfies `d + 2 = core / target` and
`core / (d + 3) < target ≤ core / (d + 2)`: the realized frequency is not
below the target and the next larger divider falls strictly below it. -/
theorem C16_realized_clock (D : Device σ) (w : World σ) (core target : Nat)
    (ht : 0 < target) (hc : 2 * target ≤ core) (h32 : core < 4294967296) :
    (∃ w', SdhcSetClock D (EFI_SUCCESS, core) target w = some (EFI_SUCCESS, w') ∧
      w'.trace = w.trace ++
        [Event.write .CDIV (ClockDiv core target),
         Event.write .TOUT (core / (ClockDiv core target + 2))]) ∧
    SdhcSetClock D (EFI_SUCCESS, core) target w =
      some (EFI_SUCCESS,
        MmioWrite32 D .TOUT (core / (ClockDiv core target + 2))
          (MmioWrite32 D .CDIV (ClockDiv core target) w)) ∧
    ClockDiv core target = (core - 2 * target) / target ∧
    ClockDiv core target + 2 = core / target ∧
    core / (ClockDiv core target + 3) < target ∧
    target ≤ core / (ClockDiv core target + 2) ∧
    ActualSdFreqHz core target = core / (ClockDiv core target + 2) := by
  have h2 := ClockDiv_add_two core target ht hc h32
  have hq : 0 < core / target := Nat.div_pos (by omega) ht
  have hrun := SdhcSetClock_writes D w core target ht hc h32
  refine ⟨⟨_, hrun, ?_⟩, hrun, ClockDiv_eq core target ht hc h32, h2, ?_, ?_, ?_⟩
  · simp [MmioWrite32_trace]
  · have e : ClockDiv core target + 3 = core / target + 1 := by omega
    rw [e, Nat.div_lt_iff_lt_mul (by omega)]
    exact Nat.lt_mul_div_succ core ht
  · rw [h2, Nat.le_div_iff_mul_le hq]
    exact Nat.mul_div_le core target
  · unfold ActualSdFreqHz
    rw [Nat.mod_eq_of_lt (ClockDiv_add_two_lt core target ht hc h32)]

/-- C16, instance: a core clock of 260 MHz and a target of 25 MHz on the
latching device; the divider written to `CDIV` is `8`, the frequency written
to `TOUT` is `26000000`, and the next divider would give `23636363`. -/
theorem C16_realized_clock_witness :
    (0 < 25000000 ∧ 2 * 25000000 ≤ 260000000 ∧ 260000000 < 4294967296) ∧
    SdhcSetClock latchDev (EFI_SUCCESS, 260000000) 25000000 (World.start edmRegs) =
      some (EFI_SUCCESS,
        MmioWrite32 latchDev .TOUT (260000000 / (ClockDiv 260000000 25000000 + 2))
          (MmioWrite32 latchDev .CDIV (ClockDiv 260000000 25000000)
            (World.start edmRegs))) ∧
    ClockDiv 260000000 25000000 + 2 = 260000000 / 25000000 ∧
    260000000 / (ClockDiv 260000000 25000000 + 3) < 25000000 ∧
    25000000 ≤ 260000000 / (ClockDiv 260000000 25000000 + 2) ∧
    ClockDiv 260000000 25000000 = 8 ∧
    260000000 / (ClockDiv 260000000 25000000 + 2) = 26000000 ∧
    260000000 / (ClockDiv 260000000 25000000 + 3) = 23636363 :=
  ⟨by decide,
    (C16_realized_clock latchDev (World.start edmRegs) 260000000 25000000
      (by decide) (by decide) (by decide)).2.1,
    (C16_realized_clock latchDev (World.start edmRegs) 260000000 25000000
      (by decide) (by decide) (by decide)).2.2.2.1,
    (C16_realized_clock latchDev (World.start edmRegs) 260000000 25000000
      (by decide) (by decide) (by decide)).2.2.2.2.1,
    (C16_realized_clock latchDev (World.start edmRegs) 260000000 25000000
      (by decide) (by decide) (by decide)).2.2.2.2.2.1,
    by decide, by decide, by decide⟩

/-! ## RPMB field encoding -/

/-- C20, the code at the failing input: for the value `0x1234`,
`Uint16ToRpmbBytes` writes the bytes `0x12` and `0x04`, because the second
byte is `Value & 0xF`, and `RpmbBytesToUint16` reads `0x1204` back from them;
from the bytes `0x12`, `0x34` it reads `0x1234`. -/
theorem C20_rpmb_low_byte_truncated :
    Uint16ToRpmbBytes 0x1234 = (0x12, 0x04) ∧
    RpmbBytesToUint16 (Uint16ToRpmbBytes 0x1234) = 0x1204 ∧
    RpmbBytesToUint16 (0x12, 0x34) = 0x1234 := by
  decide

/-! ## Projections of traces -/

theorem readsOf_append (r : Reg) (a b : List Event) :
    readsOf r (a ++ b) = readsOf r a ++ readsOf r b := by
  induction a with
  | nil => rfl
  | cons e t ih =>
    cases e <;> simp [readsOf, ih]
    split <;> simp

theorem writesOf_append (r : Reg) (a b : List Event) :
    writesOf r (a ++ b) = writesOf r a ++ writesOf r b := by
  induction a with
  | nil => rfl
  | cons e t ih =>
    cases e <;> simp [writesOf, ih]
    split <;> simp

theorem AllPolls.nil_polls : AllPolls [] := by
  intro e he
  simp at he

theorem AllPolls.cons_poll {ev : List Event} (v : Nat) (h : AllPolls ev) :
    AllPolls (Event.read .HSTS v :: ev) := by
  intro e he
  rcases List.mem_cons.mp he with h1 | h1
  · exact ⟨v, h1⟩
  · exact h e h1

theorem AllPolls.stalls_nil {ev : List Event} (h : AllPolls ev) : stalls ev = [] := by
  induction ev with
  | nil => rfl
  | cons e t ih =>
    obtain ⟨v, hv⟩ := h e (List.mem_cons_self _ _)
    subst hv
    simp only [stalls]
    exact ih (fun e he => h e (List.mem_cons_of_mem _ he))

theorem AllPolls.readsOf_DATA {ev : List Event} (h : AllPolls ev) : readsOf .DATA ev = [] := by
  induction ev with
  | nil => rfl
  | cons e t ih =>
    obtain ⟨v, hv⟩ := h e (List.mem_cons_self _ _)
    subst hv
    simp only [readsOf]
    rw [if_neg (by decide)]
    exact ih (fun e he => h e (List.mem_cons_of_mem _ he))

theorem AllPolls.writesOf_nil {ev : List Event} (r : Reg) (h : AllPolls ev) :
    writesOf r ev = [] := by
  induction ev with
  | nil => rfl
  | cons e t ih =>
    obtain ⟨v, hv⟩ := h e (List.mem_cons_self _ _)
    subst hv
    simp only [writesOf]
    exact ih (fun e he => h e (List.mem_cons_of_mem _ he))

theorem AllPolls.readCount_HSTS {ev : List Event} (h : AllPolls ev) :
    readCount .HSTS ev = ev.length := by
  induction ev with
  | nil => rfl
  | cons e t ih =>
    obtain ⟨v, hv⟩ := h e (List.mem_cons_self _ _)
    subst hv
    have := ih (fun e he => h e (List.mem_cons_of_mem _ he))
    simp only [readCount] at this ⊢
    rw [List.countP_cons_of_pos _ _ (by simp [Event.readsFrom]), this, List.length_cons]

/-- A word stored at an index is read back from it. -/
theorem loadWord_storeWord_same (B : Mem) (i v : Nat) (hv : v < 4294967296) :
    loadWord (storeWord B i v) i = v := by
  simp only [loadWord, storeWord]
  rw [if_pos (by omega), if_pos (by omega), if_pos (by omega), if_pos (by omega)]
  have e0 : 4 * i - 4 * i = 0 := by omega
  have e1 : 4 * i + 1 - 4 * i = 1 := by omega
  have e2 : 4 * i + 2 - 4 * i = 2 := by omega
  have e3 : 4 * i + 3 - 4 * i = 3 := by omega
  rw [e0, e1, e2, e3]
  norm_num
  omega

/-- A word stored at an index leaves the other words as they are. -/
theorem loadWord_storeWord_other (B : Mem) (i j v : Nat) (h : j ≠ i) :
    loadWord (storeWord B i v) j = loadWord B j := by
  simp only [loadWord, storeWord]
  rw [if_neg (by omega), if_neg (by omega), if_neg (by omega), if_neg (by omega)]

/-- A word stored at an index leaves the bytes outside the word as they are. -/
theorem storeWord_frame (B : Mem) (i v a : Nat) (h : a < 4 * i ∨ 4 * i + 4 ≤ a) :
    storeWord B i v a = B a := by
  simp only [storeWord]
  rw [if_neg (by omega)]

/-! ## Block read -/

theorem readWordLoop_ready (D : Device σ) (L : SdHostBits) (i fuel pc : Nat) (B : Mem)
    (w : World σ) (h : D.sample .HSTS w.dev &&& L.SDHOST_HSTS_DATA_FLAG ≠ 0) :
    readWordLoop D L i (fuel + 1) pc B w =
      (pc, storeWord B i (MmioRead32 D .DATA (MmioRead32 D .HSTS w).2).1,
        (MmioRead32 D .DATA (MmioRead32 D .HSTS w).2).2) := by
  rw [readWordLoop]
  simp only [MmioRead32_fst]
  rw [if_pos h]

theorem readWordLoop_wait (D : Device σ) (L : SdHostBits) (i fuel pc : Nat) (B : Mem)
    (w : World σ) (h : D.sample .HSTS w.dev &&& L.SDHOST_HSTS_DATA_FLAG = 0) :
    readWordLoop D L i (fuel + 1) pc B w =
      readWordLoop D L i fuel (pc + 1) B (MmioRead32 D .HSTS w).2 := by
  rw [readWordLoop]
  simp only [MmioRead32_fst]
  rw [if_neg (by simpa using h)]

/-- The poll loop of one word of a read either uses up its polls, leaving the
buffer alone, or ends early with one read of the data register whose value it
stores at the word index; everything before is a read of the status
register. -/
theorem readWordLoop_spec (D : Device σ) (L : SdHostBits) (i fuel pc : Nat) (B : Mem)
    (w : World σ) :
    ∃ polls, AllPolls polls ∧
      (((readWordLoop D L i fuel pc B w).1 = pc + fuel ∧
          (readWordLoop D L i fuel pc B w).2.1 = B ∧
          (readWordLoop D L i fuel pc B w).2.2.trace = w.trace ++ polls) ∨
        ((readWordLoop D L i fuel pc B w).1 < pc + fuel ∧
          ∃ v, v < 4294967296 ∧ (readWordLoop D L i fuel pc B w).2.1 = storeWord B i v ∧
            (readWordLoop D L i fuel pc B w).2.2.trace =
              w.trace ++ polls ++ [Event.read .DATA v])) := by
  induction fuel generalizing pc w with
  | zero => exact ⟨[], AllPolls.nil_polls, Or.inl ⟨rfl, rfl, by simp [readWordLoop]⟩⟩
  | succ n ih =>
    by_cases h : D.sample .HSTS w.dev &&& L.SDHOST_HSTS_DATA_FLAG = 0
    · rw [readWordLoop_wait D L i n pc B w h]
      obtain ⟨polls, hp, hcase⟩ := ih (pc + 1) (MmioRead32 D .HSTS w).2
      refine ⟨Event.read .HSTS (D.sample .HSTS w.dev) :: polls, hp.cons_poll _, ?_⟩
      rcases hcase with ⟨h1, h2, h3⟩ | ⟨h1, v, hv, h2, h3⟩
      · left
        refine ⟨by omega, h2, ?_⟩
        rw [h3, MmioRead32_trace, List.append_assoc]
        rfl
      · right
        refine ⟨by omega, v, hv, h2, ?_⟩
        rw [h3, MmioRead32_trace]
        simp only [List.append_assoc, List.cons_append, List.nil_append]
    · rw [readWordLoop_ready D L i n pc B w h]
      refine ⟨[Event.read .HSTS (D.sample .HSTS w.dev)], AllPolls.nil_polls.cons_poll _, ?_⟩
      right
      exact ⟨by omega, _, sample_lt D _ _, rfl, by simp only [MmioRead32_trace]⟩

/-- When the data flag is clear at every poll the loop of one word uses up its
polls: it makes exactly `fuel` reads of the status register and nothing else. -/
theorem readWordLoop_starved (D : Device σ) (L : SdHostBits) (i fuel pc : Nat) (B : Mem)
    (w : World σ)
    (h : ∀ j, j < fuel → D.sample .HSTS (pollDev D j w.dev) &&& L.SDHOST_HSTS_DATA_FLAG = 0) :
    ∃ polls, AllPolls polls ∧ polls.length = fuel ∧
      readWordLoop D L i fuel pc B w =
        (pc + fuel, B, ⟨pollDev D fuel w.dev, w.trace ++ polls⟩) := by
  induction fuel generalizing pc w with
  | zero => exact ⟨[], AllPolls.nil_polls, rfl, by simp [readWordLoop, pollDev]⟩
  | succ n ih =>
    have h0 := h 0 (by omega)
    rw [readWordLoop_wait D L i n pc B w h0]
    obtain ⟨polls, hp, hl, he⟩ := ih (pc + 1) (MmioRead32 D .HSTS w).2
      (fun j hj => h (j + 1) (by omega))
    refine ⟨Event.read .HSTS (D.sample .HSTS w.dev) :: polls, hp.cons_poll _, by simp [hl], ?_⟩
    rw [he]
    simp only [MmioRead32_trace, MmioRead32_dev, List.append_assoc, pollDev]
    have : pc + 1 + n = pc + (n + 1) := by omega
    rw [this]
    rfl

theorem readWords_succ (D : Device σ) (L : SdHostBits) (n k : Nat) (B : Mem) (w : World σ) :
    readWords D L (n + 1) k B w =
      if (readWordLoop D L k USDHC_POLL_RETRY_COUNT 0 B w).1 = USDHC_POLL_RETRY_COUNT then
        (EFI_TIMEOUT, (readWordLoop D L k USDHC_POLL_RETRY_COUNT 0 B w).2.1,
          MmioWrite32 D .HSTS L.SDHOST_HSTS_CLEAR
            (readWordLoop D L k USDHC_POLL_RETRY_COUNT 0 B w).2.2)
      else readWords D L n (k + 1) (readWordLoop D L k USDHC_POLL_RETRY_COUNT 0 B w).2.1
        (readWordLoop D L k USDHC_POLL_RETRY_COUNT 0 B w).2.2 := by
  rw [readWords]

/-- The words of a read are transferred one after the other: `n + m` words are
`n` words followed, if these succeed, by `m` words. -/
theorem readWords_add (D : Device σ) (L : SdHostBits) (n m k : Nat) (B : Mem) (w : World σ) :
    readWords D L (n + m) k B w =
      if (readWords D L n k B w).1 = EFI_SUCCESS then
        readWords D L m (k + n) (readWords D L n k B w).2.1 (readWords D L n k B w).2.2
      else readWords D L n k B w := by
  induction n generalizing k B w with
  | zero => simp [readWords]
  | succ n ih =>
    have e : n + 1 + m = (n + m) + 1 := by omega
    rw [e, readWords_succ, readWords_succ]
    split
    · simp
    · rw [ih]
      have e2 : k + 1 + n = k + (n + 1) := by omega
      rw [e2]

/-- What a block read leaves behind: no stall, no write but the status clear of
a timeout, and after success the words read from the data register, in order,
at the word indices, the rest of the buffer as it was. -/
theorem readWords_spec (D : Device σ) (L : SdHostBits) (n k : Nat) (B : Mem) (w : World σ) :
    ∃ ev, (readWords D L n k B w).2.2.trace = w.trace ++ ev ∧ stalls ev = [] ∧
      ((readWords D L n k B w).1 = EFI_SUCCESS →
        (∀ e ∈ ev, e.isWrite = false) ∧
        readsOf .DATA ev = (List.range' k n).map (loadWord (readWords D L n k B w).2.1) ∧
        ∀ a, a < 4 * k ∨ 4 * (k + n) ≤ a → (readWords D L n k B w).2.1 a = B a) := by
  induction n generalizing k B w with
  | zero =>
    exact ⟨[], by simp [readWords], rfl, fun _ => ⟨by simp, rfl, fun _ _ => rfl⟩⟩
  | succ n ih =>
    rw [readWords_succ]
    obtain ⟨polls, hp, hcase⟩ := readWordLoop_spec D L k USDHC_POLL_RETRY_COUNT 0 B w
    rcases hcase with ⟨h1, h2, h3⟩ | ⟨h1, v, hv, h2, h3⟩
    · rw [if_pos (by omega)]
      refine ⟨polls ++ [Event.write .HSTS L.SDHOST_HSTS_CLEAR], ?_, ?_, ?_⟩
      · rw [MmioWrite32_trace, h3, List.append_assoc]
      · rw [stalls_append, hp.stalls_nil]
        rfl
      · intro h
        simp at h
    · rw [if_neg (by omega)]
      have ih' := ih (k + 1)
        (readWordLoop D L k USDHC_POLL_RETRY_COUNT 0 B w).2.1
        (readWordLoop D L k USDHC_POLL_RETRY_COUNT 0 B w).2.2
      generalize readWords D L n (k + 1)
        (readWordLoop D L k USDHC_POLL_RETRY_COUNT 0 B w).2.1
        (readWordLoop D L k USDHC_POLL_RETRY_COUNT 0 B w).2.2 = q at ih' ⊢
      obtain ⟨ev, he, hs, hok⟩ := ih'
      refine ⟨polls ++ [Event.read .DATA v] ++ ev, ?_, ?_, ?_⟩
      · rw [he, h3]
        simp only [List.append_assoc]
      · rw [stalls_append, stalls_append, hp.stalls_nil, hs]
        rfl
      · intro hst
        obtain ⟨hw, hr, hf⟩ := hok hst
        refine ⟨?_, ?_, ?_⟩
        · intro e hmem
          rcases List.mem_append.mp hmem with hm | hm
          · rcases List.mem_append.mp hm with hm | hm
            · obtain ⟨u, hu⟩ := hp e hm
              subst hu
              rfl
            · simp only [List.mem_singleton] at hm
              subst hm
              rfl
          · exact hw e hm
        · rw [readsOf_append, readsOf_append, hp.readsOf_DATA, hr, List.range'_succ,
            List.map_cons]
          have hk : loadWord q.2.1 k = v := by
            have e : ∀ a, a < 4 * (k + 1) → q.2.1 a = storeWord B k v a := by
              intro a ha
              rw [hf a (Or.inl ha), h2]
            simp only [loadWord]
            rw [e _ (by omega), e _ (by omega), e _ (by omega), e _ (by omega)]
            exact loadWord_storeWord_same B k v hv
          rw [hk]
          simp [readsOf]
        · intro a ha
          rw [hf a (by omega), h2, storeWord_frame B k v a (by omega)]

/-! ## Block write -/

theorem writeWordLoop_ready (D : Device σ) (L : SdHostBits) (B : Mem) (i fuel pc : Nat)
    (w : World σ) (h : D.sample .HSTS w.dev &&& L.SDHOST_HSTS_DATA_FLAG ≠ 0) :
    writeWordLoop D L B i (fuel + 1) pc w =
      (pc, MmioWrite32 D .DATA (loadWord B i) (MmioRead32 D .HSTS w).2) := by
  rw [writeWordLoop]
  simp only [MmioRead32_fst]
  rw [if_pos h]

theorem writeWordLoop_wait (D : Device σ) (L : SdHostBits) (B : Mem) (i fuel pc : Nat)
    (w : World σ) (h : D.sample .HSTS w.dev &&& L.SDHOST_HSTS_DATA_FLAG = 0) :
    writeWordLoop D L B i (fuel + 1) pc w =
      writeWordLoop D L B i fuel (pc + 1) (MmioRead32 D .HSTS w).2 := by
  rw [writeWordLoop]
  simp only [MmioRead32_fst]
  rw [if_neg (by simpa using h)]

/-- The poll loop of one word of a write either uses up its polls or ends early
with one write of the word to the data register; everything before is a read
of the status register. -/
theorem writeWordLoop_spec (D : Device σ) (L : SdHostBits) (B : Mem) (i fuel pc : Nat)
    (w : World σ) :
    ∃ polls, AllPolls polls ∧
      (((writeWordLoop D L B i fuel pc w).1 = pc + fuel ∧
          (writeWordLoop D L B i fuel pc w).2.trace = w.trace ++ polls) ∨
        ((writeWordLoop D L B i fuel pc w).1 < pc + fuel ∧
          (writeWordLoop D L B i fuel pc w).2.trace =
            w.trace ++ polls ++ [Event.write .DATA (loadWord B i)])) := by
  induction fuel generalizing pc w with
  | zero => exact ⟨[], AllPolls.nil_polls, Or.inl ⟨rfl, by simp [writeWordLoop]⟩⟩
  | succ n ih =>
    by_cases h : D.sample .HSTS w.dev &&& L.SDHOST_HSTS_DATA_FLAG = 0
    · rw [writeWordLoop_wait D L B i n pc w h]
      obtain ⟨polls, hp, hcase⟩ := ih (pc + 1) (MmioRead32 D .HSTS w).2
      refine ⟨Event.read .HSTS (D.sample .HSTS w.dev) :: polls, hp.cons_poll _, ?_⟩
      rcases hcase with ⟨h1, h3⟩ | ⟨h1, h3⟩
      · left
        refine ⟨by omega, ?_⟩
        rw [h3, MmioRead32_trace, List.append_assoc]
        rfl
      · right
        refine ⟨by omega, ?_⟩
        rw [h3, MmioRead32_trace]
        simp only [List.append_assoc, List.cons_append, List.nil_append]
    · rw [writeWordLoop_ready D L B i n pc w h]
      refine ⟨[Event.read .HSTS (D.sample .HSTS w.dev)], AllPolls.nil_polls.cons_poll _, ?_⟩
      right
      exact ⟨by omega, by simp only [MmioWrite32_trace, MmioRead32_trace]⟩

/-- When the data flag is clear at every poll the loop of one word of a write
uses up its polls: exactly `fuel` reads of the status register and nothing
else. -/
theorem writeWordLoop_starved (D : Device σ) (L : SdHostBits) (B : Mem) (i fuel pc : Nat)
    (w : World σ)
    (h : ∀ j, j < fuel → D.sample .HSTS (pollDev D j w.dev) &&& L.SDHOST_HSTS_DATA_FLAG = 0) :
    ∃ polls, AllPolls polls ∧ polls.length = fuel ∧
      writeWordLoop D L B i fuel pc w = (pc + fuel, ⟨pollDev D fuel w.dev, w.trace ++ polls⟩) := by
  induction fuel generalizing pc w with
  | zero => exact ⟨[], AllPolls.nil_polls, rfl, by simp [writeWordLoop, pollDev]⟩
  | succ n ih =>
    have h0 := h 0 (by omega)
    rw [writeWordLoop_wait D L B i n pc w h0]
    obtain ⟨polls, hp, hl, he⟩ := ih (pc + 1) (MmioRead32 D .HSTS w).2
      (fun j hj => h (j + 1) (by omega))
    refine ⟨Event.read .HSTS (D.sample .HSTS w.dev) :: polls, hp.cons_poll _, by simp [hl], ?_⟩
    rw [he]
    simp only [MmioRead32_trace, MmioRead32_dev, List.append_assoc, pollDev]
    have : pc + 1 + n = pc + (n + 1) := by omega
    rw [this]
    rfl

theorem writeWords_succ (D : Device σ) (L : SdHostBits) (B : Mem) (n k : Nat) (w : World σ) :
    writeWords D L B (n + 1) k w =
      if (writeWordLoop D L B k USDHC_POLL_RETRY_COUNT 0 w).1 = USDHC_POLL_RETRY_COUNT then
        (EFI_TIMEOUT, MmioWrite32 D .HSTS L.SDHOST_HSTS_CLEAR
          (DumpState D L (writeWordLoop D L B k USDHC_POLL_RETRY_COUNT 0 w).2))
      else writeWords D L B n (k + 1) (writeWordLoop D L B k USDHC_POLL_RETRY_COUNT 0 w).2 := by
  rw [writeWords]

/-- The words of a write are transferred one after the other. -/
theorem writeWords_add (D : Device σ) (L : SdHostBits) (B : Mem) (n m k : Nat) (w : World σ) :
    writeWords D L B (n + m) k w =
      if (writeWords D L B n k w).1 = EFI_SUCCESS then
        writeWords D L B m (k + n) (writeWords D L B n k w).2
      else writeWords D L B n k w := by
  induction n generalizing k w with
  | zero => simp [writeWords]
  | succ n ih =>
    have e : n + 1 + m = (n + m) + 1 := by omega
    rw [e, writeWords_succ, writeWords_succ]
    split
    · simp
    · rw [ih]
      have e2 : k + 1 + n = k + (n + 1) := by omega
      rw [e2]

/-- What a block write leaves behind: no stall, and after success the words of
the buffer written to the data register, in index order, as the only writes. -/
theorem writeWords_spec (D : Device σ) (L : SdHostBits) (B : Mem) (n k : Nat) (w : World σ) :
    ∃ ev, (writeWords D L B n k w).2.trace = w.trace ++ ev ∧ stalls ev = [] ∧
      ((writeWords D L B n k w).1 = EFI_SUCCESS →
        writesOf .DATA ev = (List.range' k n).map (loadWord B) ∧
        ∀ e ∈ ev, e.isWrite = true → e.writesTo .DATA = true) := by
  induction n generalizing k w with
  | zero => exact ⟨[], by simp [writeWords], rfl, fun _ => ⟨rfl, by simp⟩⟩
  | succ n ih =>
    rw [writeWords_succ]
    obtain ⟨polls, hp, hcase⟩ := writeWordLoop_spec D L B k USDHC_POLL_RETRY_COUNT 0 w
    rcases hcase with ⟨h1, h3⟩ | ⟨h1, h3⟩
    · rw [if_pos (by omega)]
      obtain ⟨dump, hd, hpd⟩ := DumpState_events D L
        (writeWordLoop D L B k USDHC_POLL_RETRY_COUNT 0 w).2
      refine ⟨polls ++ dump ++ [Event.write .HSTS L.SDHOST_HSTS_CLEAR], ?_, ?_, ?_⟩
      · rw [MmioWrite32_trace, hd, h3]
        simp only [List.append_assoc]
      · rw [stalls_append, stalls_append, hp.stalls_nil, hpd.stalls_eq]
        rfl
      · intro h
        simp at h
    · rw [if_neg (by omega)]
      have ih' := ih (k + 1) (writeWordLoop D L B k USDHC_POLL_RETRY_COUNT 0 w).2
      generalize writeWords D L B n (k + 1)
        (writeWordLoop D L B k USDHC_POLL_RETRY_COUNT 0 w).2 = q at ih' ⊢
      obtain ⟨ev, he, hs, hok⟩ := ih'
      refine ⟨polls ++ [Event.write .DATA (loadWord B k)] ++ ev, ?_, ?_, ?_⟩
      · rw [he, h3]
        simp only [List.append_assoc]
      · rw [stalls_append, stalls_append, hp.stalls_nil, hs]
        rfl
      · intro hst
        obtain ⟨hr, hw⟩ := hok hst
        refine ⟨?_, ?_⟩
        · rw [writesOf_append, writesOf_append, hp.writesOf_nil, hr, List.range'_succ,
            List.map_cons]
          simp [writesOf]
        · intro e hmem hiw
          rcases List.mem_append.mp hmem with hm | hm
          · rcases List.mem_append.mp hm with hm | hm
            · obtain ⟨u, hu⟩ := hp e hm
              subst hu
              simp [Event.isWrite] at hiw
            · simp only [List.mem_singleton] at hm
              subst hm
              simp [Event.writesTo]
          · exact hw e hm hiw

/-! ## A word that never becomes available -/

@[simp]
theorem LedSetOk_trace (lit : Bool) (w : World σ) :
    (LedSetOk lit w).trace = w.trace ++ [Event.led lit] := rfl

@[simp]
theorem LedSetOk_dev (lit : Bool) (w : World σ) : (LedSetOk lit w).dev = w.dev := rfl

/-- Every register occurs once in the register dump. -/
theorem dumpRegs_count (r : Reg) : dumpRegs.count r = 1 := by
  cases r <;> decide

theorem readAll_readCount (D : Device σ) (regs : List Reg) (w : World σ) :
    ∃ ev, (regs.foldl (fun w r => (MmioRead32 D r w).2) w).trace = w.trace ++ ev ∧
      Polled ev 0 ∧ ∀ r, readCount r ev = regs.count r := by
  induction regs generalizing w with
  | nil => exact ⟨[], by simp, Polled.nil, fun r => by simp [readCount]⟩
  | cons r0 t ih =>
    obtain ⟨ev, htr, hp, hc⟩ := ih (MmioRead32 D r0 w).2
    refine ⟨[Event.read r0 (D.sample r0 w.dev)] ++ ev, ?_, ?_, ?_⟩
    · simp only [List.foldl_cons, htr, MmioRead32_trace, List.append_assoc]
    · simpa using (Polled.read r0 (D.sample r0 w.dev)).followedBy hp
    · intro r
      rw [readCount_append, hc r, List.count_cons]
      by_cases h : r0 = r
      · subst h
        simp [readCount, Event.readsFrom]
        omega
      · simp [readCount, Event.readsFrom, h]

/-- The register dump in full: nothing when it is disabled, one read of every
register when it is enabled. -/
theorem DumpState_dump (D : Device σ) (L : SdHostBits) (w : World σ) :
    ∃ dump, (DumpState D L w).trace = w.trace ++ dump ∧ Polled dump 0 ∧
      (L.DebugDump = false → dump = []) ∧
      (L.DebugDump = true → ∀ r, readCount r dump = 1) := by
  unfold DumpState
  split
  · rename_i h
    obtain ⟨ev, htr, hp, hc⟩ := readAll_readCount D dumpRegs w
    exact ⟨ev, htr, hp, fun h' => by simp [h] at h', fun _ r => by rw [hc r, dumpRegs_count]⟩
  · rename_i h
    exact ⟨[], by simp, Polled.nil, fun _ => rfl, fun h' => absurd h' h⟩

/-- A word loop that used up its polls ends the block read with a timeout. -/
theorem readWords_timeout (D : Device σ) (L : SdHostBits) (B : Mem) (w w' : World σ)
    (k m : Nat)
    (he : readWordLoop D L k USDHC_POLL_RETRY_COUNT 0 B w =
      (0 + USDHC_POLL_RETRY_COUNT, B, w')) :
    readWords D L (m + 1) k B w =
      (EFI_TIMEOUT, B, MmioWrite32 D .HSTS L.SDHOST_HSTS_CLEAR w') := by
  rw [readWords_succ, he]
  exact if_pos (Nat.zero_add _)

/-- A word loop that used up its polls ends the block write with a timeout. -/
theorem writeWords_timeout (D : Device σ) (L : SdHostBits) (B : Mem) (w w' : World σ)
    (k m : Nat)
    (he : writeWordLoop D L B k USDHC_POLL_RETRY_COUNT 0 w =
      (0 + USDHC_POLL_RETRY_COUNT, w')) :
    writeWords D L B (m + 1) k w =
      (EFI_TIMEOUT, MmioWrite32 D .HSTS L.SDHOST_HSTS_CLEAR (DumpState D L w')) := by
  rw [writeWords_succ, he]
  exact if_pos (Nat.zero_add _)

/-- A block read whose word `i` never becomes available, after `i` words that
were transferred. -/
theorem readBlock_timeout (D : Device σ) (L : SdHostBits) (LengthInBytes : Nat) (Buffer : Mem)
    (w : World σ) (i : Nat) (hi : i < (LengthInBytes / 4) % 4294967296)
    (hpre : (readWords D L i 0 Buffer (LedSetOk true w)).1 = EFI_SUCCESS)
    (hstarve : ∀ j, j < USDHC_POLL_RETRY_COUNT →
      D.sample .HSTS (pollDev D j (readWords D L i 0 Buffer (LedSetOk true w)).2.2.dev)
        &&& L.SDHOST_HSTS_DATA_FLAG = 0) :
    (SdhcReadBlockData D L LengthInBytes Buffer w).1 = EFI_TIMEOUT ∧
    (SdhcReadBlockData D L LengthInBytes Buffer w).2.1 =
      (readWords D L i 0 Buffer (LedSetOk true w)).2.1 ∧
    (∀ a, 4 * i ≤ a → (SdhcReadBlockData D L LengthInBytes Buffer w).2.1 a = Buffer a) ∧
    ∃ pre polls,
      (SdhcReadBlockData D L LengthInBytes Buffer w).2.2.trace =
        w.trace ++ [Event.led true] ++ pre ++ polls ++
          [Event.write .HSTS L.SDHOST_HSTS_CLEAR, Event.led false] ∧
      (∀ e ∈ pre, e.isWrite = false) ∧
      readsOf .DATA pre =
        (List.range i).map (loadWord (SdhcReadBlockData D L LengthInBytes Buffer w).2.1) ∧
      AllPolls polls ∧ polls.length = 1000000 := by
  obtain ⟨m, hm⟩ : ∃ m, (LengthInBytes / 4) % 4294967296 = i + (m + 1) :=
    ⟨(LengthInBytes / 4) % 4294967296 - i - 1, by omega⟩
  obtain ⟨polls, hp, hl, he⟩ := readWordLoop_starved D L (0 + i) USDHC_POLL_RETRY_COUNT 0
    (readWords D L i 0 Buffer (LedSetOk true w)).2.1
    (readWords D L i 0 Buffer (LedSetOk true w)).2.2 hstarve
  obtain ⟨pre, hpt, _, hok⟩ := readWords_spec D L i 0 Buffer (LedSetOk true w)
  obtain ⟨hw, hr, hf⟩ := hok hpre
  have hres : readWords D L ((LengthInBytes / 4) % 4294967296) 0 Buffer (LedSetOk true w) =
      (EFI_TIMEOUT, (readWords D L i 0 Buffer (LedSetOk true w)).2.1,
        MmioWrite32 D .HSTS L.SDHOST_HSTS_CLEAR
          ⟨pollDev D USDHC_POLL_RETRY_COUNT (readWords D L i 0 Buffer (LedSetOk true w)).2.2.dev,
            (readWords D L i 0 Buffer (LedSetOk true w)).2.2.trace ++ polls⟩) := by
    rw [hm, readWords_add, if_pos hpre]
    exact readWords_timeout D L _ _ _ _ m he
  have hb : SdhcReadBlockData D L LengthInBytes Buffer w =
      (EFI_TIMEOUT, (readWords D L i 0 Buffer (LedSetOk true w)).2.1,
        LedSetOk false (MmioWrite32 D .HSTS L.SDHOST_HSTS_CLEAR
          ⟨pollDev D USDHC_POLL_RETRY_COUNT (readWords D L i 0 Buffer (LedSetOk true w)).2.2.dev,
            (readWords D L i 0 Buffer (LedSetOk true w)).2.2.trace ++ polls⟩)) := by
    simp only [SdhcReadBlockData, hres]
  rw [hb]
  refine ⟨rfl, rfl, ?_, pre, polls, ?_, hw, ?_, hp, hl⟩
  · intro a ha
    exact hf a (Or.inr (by omega))
  · simp only [LedSetOk_trace, MmioWrite32_trace, hpt, List.append_assoc, List.cons_append,
      List.nil_append]
  · rw [hr, List.range_eq_range']

/-- A block write whose word `i` never becomes available, after `i` words that
were transferred. -/
theorem writeBlock_timeout (D : Device σ) (L : SdHostBits) (LengthInBytes : Nat) (Buffer : Mem)
    (w : World σ) (i : Nat) (hi : i < (LengthInBytes / 4) % 4294967296)
    (hpre : (writeWords D L Buffer i 0 (LedSetOk true w)).1 = EFI_SUCCESS)
    (hstarve : ∀ j, j < USDHC_POLL_RETRY_COUNT →
      D.sample .HSTS (pollDev D j (writeWords D L Buffer i 0 (LedSetOk true w)).2.dev)
        &&& L.SDHOST_HSTS_DATA_FLAG = 0) :
    (SdhcWriteBlockData D L LengthInBytes Buffer w).1 = EFI_TIMEOUT ∧
    ∃ pre polls dump,
      (SdhcWriteBlockData D L LengthInBytes Buffer w).2.trace =
        w.trace ++ [Event.led true] ++ pre ++ polls ++ dump ++
          [Event.write .HSTS L.SDHOST_HSTS_CLEAR, Event.led false] ∧
      writesOf .DATA pre = (List.range i).map (loadWord Buffer) ∧
      AllPolls polls ∧ polls.length = 1000000 ∧
      (∀ e ∈ dump, e.isWrite = false) ∧
      (L.DebugDump = false → dump = []) ∧
      (L.DebugDump = true → ∀ r, readCount r dump = 1) := by
  obtain ⟨m, hm⟩ : ∃ m, (LengthInBytes / 4) % 4294967296 = i + (m + 1) :=
    ⟨(LengthInBytes / 4) % 4294967296 - i - 1, by omega⟩
  obtain ⟨polls, hp, hl, he⟩ := writeWordLoop_starved D L Buffer (0 + i)
    USDHC_POLL_RETRY_COUNT 0 (writeWords D L Buffer i 0 (LedSetOk true w)).2 hstarve
  obtain ⟨pre, hpt, _, hok⟩ := writeWords_spec D L Buffer i 0 (LedSetOk true w)
  obtain ⟨hr, _⟩ := hok hpre
  obtain ⟨dump, hd, hpd, hoff, hon⟩ := DumpState_dump D L
    ⟨pollDev D USDHC_POLL_RETRY_COUNT (writeWords D L Buffer i 0 (LedSetOk true w)).2.dev,
      (writeWords D L Buffer i 0 (LedSetOk true w)).2.trace ++ polls⟩
  have hres : writeWords D L Buffer ((LengthInBytes / 4) % 4294967296) 0 (LedSetOk true w) =
      (EFI_TIMEOUT, MmioWrite32 D .HSTS L.SDHOST_HSTS_CLEAR (DumpState D L
          ⟨pollDev D USDHC_POLL_RETRY_COUNT (writeWords D L Buffer i 0 (LedSetOk true w)).2.dev,
            (writeWords D L Buffer i 0 (LedSetOk true w)).2.trace ++ polls⟩)) := by
    rw [hm, writeWords_add, if_pos hpre]
    exact writeWords_timeout D L Buffer _ _ _ m he
  have hb : SdhcWriteBlockData D L LengthInBytes Buffer w =
      (EFI_TIMEOUT, LedSetOk false (MmioWrite32 D .HSTS L.SDHOST_HSTS_CLEAR (DumpState D L
          ⟨pollDev D USDHC_POLL_RETRY_COUNT (writeWords D L Buffer i 0 (LedSetOk true w)).2.dev,
            (writeWords D L Buffer i 0 (LedSetOk true w)).2.trace ++ polls⟩))) := by
    simp only [SdhcWriteBlockData, hres]
  rw [hb]
  refine ⟨rfl, pre, polls, dump, ?_, ?_, hp, hl, hpd.noWrite, hoff, hon⟩
  · rw [LedSetOk_trace, MmioWrite32_trace, hd]
    simp only [LedSetOk_trace, hpt, List.append_assoc, List.cons_append, List.nil_append]
  · rw [hr, List.range_eq_range']

/-- C12, as stated, fails for the write direction when the register dump is
enabled: the data flag is never set, word 0 of a 512-byte write times out after
1,000,000 polls, and before the status clear `DumpState` reads every register,
the data register among them. -/
theorem C12_counterexample :
    (SdhcWriteBlockData (constDev 0 0) sampleBitsDebug 512 sevens (World.start ())).1
      = EFI_TIMEOUT ∧
    ∃ pre polls dump,
      (SdhcWriteBlockData (constDev 0 0) sampleBitsDebug 512 sevens (World.start ())).2.trace =
        (World.start ()).trace ++ [Event.led true] ++ pre ++ polls ++ dump ++
          [Event.write .HSTS sampleBitsDebug.SDHOST_HSTS_CLEAR, Event.led false] ∧
      writesOf .DATA pre = [] ∧ AllPolls polls ∧ polls.length = 1000000 ∧
      readCount .DATA dump = 1 := by
  obtain ⟨h1, pre, polls, dump, h2, h3, h4, h5, _, _, h8⟩ :=
    writeBlock_timeout (constDev 0 0) sampleBitsDebug 512 sevens (World.start ()) 0
      (by decide) rfl (fun j _ => by rw [constDev_sample_HSTS]; decide)
  exact ⟨h1, pre, polls, dump, h2, h3, h4, h5, h8 rfl .DATA⟩

/-- C12, amended: if in `SdhcReadBlockData` the data flag is clear at each of
the 1,000,000 polls made for word `i`, after the words before `i` were
transferred, the call returns timeout, the buffer holds in its words
`0 .. i-1` the words read from the data register, in order, every byte from
offset `4 * i` on is unchanged, and after the last transferred word the call
only polls the status register 1,000,000 times, clears the status and switches
the activity indicator off. `SdhcWriteBlockData` does the same with the words
`0 .. i-1` of the buffer written to the data register, except that between the
polls and the status clear it calls `DumpState`, which reads every register
once, the data register included, when the register dump is enabled, and
nothing otherwise; the data register is not written after the timeout. -/
theorem C12_word_timeout (D : Device σ) (L : SdHostBits) (LengthInBytes : Nat) (Buffer : Mem)
    (w : World σ) (i : Nat) (hi : i < (LengthInBytes / 4) % 4294967296) :
    ((readWords D L i 0 Buffer (LedSetOk true w)).1 = EFI_SUCCESS →
      (∀ j, j < 1000000 →
        D.sample .HSTS (pollDev D j (readWords D L i 0 Buffer (LedSetOk true w)).2.2.dev)
          &&& L.SDHOST_HSTS_DATA_FLAG = 0) →
      (SdhcReadBlockData D L LengthInBytes Buffer w).1 = EFI_TIMEOUT ∧
      (∀ a, 4 * i ≤ a → (SdhcReadBlockData D L LengthInBytes Buffer w).2.1 a = Buffer a) ∧
      ∃ pre polls,
        (SdhcReadBlockData D L LengthInBytes Buffer w).2.2.trace =
          w.trace ++ [Event.led true] ++ pre ++ polls ++
            [Event.write .HSTS L.SDHOST_HSTS_CLEAR, Event.led false] ∧
        (∀ e ∈ pre, e.isWrite = false) ∧
        readsOf .DATA pre =
          (List.range i).map (loadWord (SdhcReadBlockData D L LengthInBytes Buffer w).2.1) ∧
        AllPolls polls ∧ polls.length = 1000000) ∧
    ((writeWords D L Buffer i 0 (LedSetOk true w)).1 = EFI_SUCCESS →
      (∀ j, j < 1000000 →
        D.sample .HSTS (pollDev D j (writeWords D L Buffer i 0 (LedSetOk true w)).2.dev)
          &&& L.SDHOST_HSTS_DATA_FLAG = 0) →
      (SdhcWriteBlockData D L LengthInBytes Buffer w).1 = EFI_TIMEOUT ∧
      ∃ pre polls dump,
        (SdhcWriteBlockData D L LengthInBytes Buffer w).2.trace =
          w.trace ++ [Event.led true] ++ pre ++ polls ++ dump ++
            [Event.write .HSTS L.SDHOST_HSTS_CLEAR, Event.led false] ∧
        writesOf .DATA pre = (List.range i).map (loadWord Buffer) ∧
        AllPolls polls ∧ polls.length = 1000000 ∧
        (∀ e ∈ dump, e.isWrite = false) ∧
        (L.DebugDump = false → dump = []) ∧
        (L.DebugDump = true → ∀ r, readCount r dump = 1)) := by
  constructor
  · intro hpre hstarve
    obtain ⟨h1, _, h3, h4⟩ := readBlock_timeout D L LengthInBytes Buffer w i hi hpre hstarve
    exact ⟨h1, h3, h4⟩
  · intro hpre hstarve
    exact writeBlock_timeout D L LengthInBytes Buffer w i hi hpre hstarve

/-- The counting device after `j` further polls. -/
theorem gateDev_pollDev (ready : Nat → Bool) (data j n : Nat) :
    pollDev (gateDev ready data) j n = n + j := by
  induction j generalizing n with
  | zero => rfl
  | succ j ih =>
    rw [pollDev, ih]
    show n + 1 + j = n + (j + 1)
    omega

/-- C12 amended, instance: an 8-byte read from a device whose data flag is set
at the first poll only; word 0 is transferred, word 1 times out. -/
theorem C12_word_timeout_witness :
    1 < (8 / 4) % 4294967296 ∧
    (SdhcReadBlockData (gateDev (fun n => decide (n = 0)) 0xAABBCCDD) sampleBits 8 sevens
      (World.start 0)).1 = EFI_TIMEOUT ∧
    (SdhcWriteBlockData (gateDev (fun n => decide (n = 0)) 0xAABBCCDD) sampleBits 8 sevens
      (World.start 0)).1 = EFI_TIMEOUT := by
  have hdev : (readWords (gateDev (fun n => decide (n = 0)) 0xAABBCCDD) sampleBits 1 0 sevens
      (LedSetOk true (World.start 0))).2.2.dev = 1 := by decide
  have hdevw : (writeWords (gateDev (fun n => decide (n = 0)) 0xAABBCCDD) sampleBits sevens 1 0
      (LedSetOk true (World.start 0))).2.dev = 1 := by decide
  have hs : ∀ j, (gateDev (fun n => decide (n = 0)) 0xAABBCCDD).sample .HSTS
      (pollDev (gateDev (fun n => decide (n = 0)) 0xAABBCCDD) j 1)
        &&& sampleBits.SDHOST_HSTS_DATA_FLAG = 0 := by
    intro j
    rw [gateDev_pollDev]
    have : (gateDev (fun n => decide (n = 0)) 0xAABBCCDD).sample .HSTS (1 + j) = 0 := by
      simp [Device.sample, gateDev]
    rw [this]
    rfl
  refine ⟨by decide, ?_, ?_⟩
  · exact ((C12_word_timeout (gateDev (fun n => decide (n = 0)) 0xAABBCCDD) sampleBits 8 sevens
      (World.start 0) 1 (by decide)).1 (by decide) (fun j _ => by rw [hdev]; exact hs j)).1
  · exact ((C12_word_timeout (gateDev (fun n => decide (n = 0)) 0xAABBCCDD) sampleBits 8 sevens
      (World.start 0) 1 (by decide)).2 (by decide) (fun j _ => by rw [hdevw]; exact hs j)).1

/-! ## Stalls between polls -/

/-- The poll loop of the command register, entered after a read of the register,
stalls before every further read. -/
theorem cmdPollLoop_spaced (D : Device σ) (L : SdHostBits) (n c : Nat) (w : World σ) :
    ∃ ev, (cmdPollLoop D L n c w).world.trace = w.trace ++ ev ∧ spaced .CMD true ev = true := by
  induction n generalizing c w with
  | zero => exact ⟨[], by simp [cmdPollLoop], rfl⟩
  | succ n ih =>
    by_cases hb : c &&& L.SDHOST_CMD_NEW_FLAG = 0
    · rw [cmdPollLoop_idle D L _ c w hb]
      exact ⟨[], by simp, rfl⟩
    · rw [cmdPollLoop_succ_busy D L n c w hb]
      obtain ⟨ev, htr, hs⟩ := ih (MmioRead32 D .CMD (Stall D USDHC_POLL_WAIT_US w)).1
        (MmioRead32 D .CMD (Stall D USDHC_POLL_WAIT_US w)).2
      refine ⟨Event.stall USDHC_POLL_WAIT_US ::
        Event.read .CMD (D.sample .CMD (Stall D USDHC_POLL_WAIT_US w).dev) :: ev, ?_, ?_⟩
      · rw [htr]
        simp only [MmioRead32_trace, Stall_trace, List.append_assoc, List.cons_append,
          List.nil_append]
      · simp [spaced, hs]

theorem awaitCmd_spaced (D : Device σ) (L : SdHostBits) (w : World σ) :
    ∃ ev, (awaitCmd D L w).world.trace = w.trace ++ ev ∧ spaced .CMD false ev = true := by
  obtain ⟨ev, htr, hs⟩ := cmdPollLoop_spaced D L USDHC_POLL_RETRY_COUNT
    (MmioRead32 D .CMD w).1 (MmioRead32 D .CMD w).2
  refine ⟨Event.read .CMD (D.sample .CMD w.dev) :: ev, ?_, ?_⟩
  · simp only [awaitCmd, htr, MmioRead32_trace, List.append_assoc, List.cons_append,
      List.nil_append]
  · simp [spaced, hs]

/-- The flush loop stalls between any two polls of the status register. -/
theorem flushLoop_spaced (D : Device σ) (L : SdHostBits) (n : Nat) (w : World σ) :
    ∃ ev, (flushLoop D L n w).2.trace = w.trace ++ ev ∧ spaced .HSTS false ev = true := by
  induction n generalizing w with
  | zero =>
    exact ⟨[Event.read .HSTS (D.sample .HSTS w.dev)], by simp [flushLoop], by simp [spaced]⟩
  | succ n ih =>
    by_cases hb : D.sample .HSTS w.dev &&& L.SDHOST_HSTS_DATA_FLAG = 0
    · rw [flushLoop_succ_clear D L n w hb]
      exact ⟨[Event.read .HSTS (D.sample .HSTS w.dev)], by simp, by simp [spaced]⟩
    · rw [flushLoop_succ_set D L n w hb]
      obtain ⟨ev, htr, hs⟩ :=
        ih (Stall D USDHC_POLL_WAIT_US (MmioRead32 D .DATA (MmioRead32 D .HSTS w).2).2)
      refine ⟨Event.read .HSTS (D.sample .HSTS w.dev) ::
        Event.read .DATA (D.sample .DATA (MmioRead32 D .HSTS w).2.dev) ::
        Event.stall USDHC_POLL_WAIT_US :: ev, ?_, ?_⟩
      · rw [htr]
        simp only [MmioRead32_trace, Stall_trace, List.append_assoc, List.cons_append,
          List.nil_append]
      · simp [spaced, hs]

/-- A block read makes no stall at all. -/
theorem SdhcReadBlockData_no_stall (D : Device σ) (L : SdHostBits) (LengthInBytes : Nat)
    (Buffer : Mem) (w : World σ) :
    ∃ ev, (SdhcReadBlockData D L LengthInBytes Buffer w).2.2.trace = w.trace ++ ev ∧
      stalls ev = [] := by
  obtain ⟨ev, htr, hs, _⟩ := readWords_spec D L ((LengthInBytes / 4) % 4294967296) 0 Buffer
    (LedSetOk true w)
  refine ⟨[Event.led true] ++ ev ++ [Event.led false], ?_, ?_⟩
  · simp only [SdhcReadBlockData, LedSetOk_trace, htr, List.append_assoc]
  · rw [stalls_append, stalls_append, hs]
    rfl

/-- A block write makes no stall at all. -/
theorem SdhcWriteBlockData_no_stall (D : Device σ) (L : SdHostBits) (LengthInBytes : Nat)
    (Buffer : Mem) (w : World σ) :
    ∃ ev, (SdhcWriteBlockData D L LengthInBytes Buffer w).2.trace = w.trace ++ ev ∧
      stalls ev = [] := by
  obtain ⟨ev, htr, hs, _⟩ := writeWords_spec D L Buffer ((LengthInBytes / 4) % 4294967296) 0
    (LedSetOk true w)
  refine ⟨[Event.led true] ++ ev ++ [Event.led false], ?_, ?_⟩
  · simp only [SdhcWriteBlockData, LedSetOk_trace, htr, List.append_assoc]
  · rw [stalls_append, stalls_append, hs]
    rfl

/-- C19, as stated, fails: on a device whose data flag is clear at the first
poll and set at the second, a 4-byte `SdhcReadBlockData` polls the status
register twice in a row with no stall between the polls. -/
theorem C19_counterexample :
    (SdhcReadBlockData (gateDev (fun n => decide (1 ≤ n)) 0xAABBCCDD) sampleBits 4 sevens
      (World.start 0)).2.2.trace =
      [Event.led true, Event.read .HSTS 0, Event.read .HSTS 1, Event.read .DATA 0xAABBCCDD,
       Event.led false] ∧
    spaced .HSTS false
      (SdhcReadBlockData (gateDev (fun n => decide (1 ≤ n)) 0xAABBCCDD) sampleBits 4 sevens
        (World.start 0)).2.2.trace = false := by
  decide

/-- C19, amended: in the poll loop of `WaitForCmd` and `WaitForCmdResponse`
(their common head `awaitCmd`) no two reads of the command register, and in
`FlushReadFifo` no two reads of the status register, follow each other without
a stall of 20 microseconds between them; `SdhcReadBlockData` and
`SdhcWriteBlockData` poll the status register back to back and make no stall at
all. -/
theorem C19_stall_between_polls (D : Device σ) (L : SdHostBits) (w : World σ)
    (LengthInBytes : Nat) (Buffer : Mem) :
    (∃ ev, (WaitForCmd D L w).2.trace = w.trace ++ ev ∧ spaced .CMD false ev = true) ∧
    (∃ ev, (awaitCmd D L w).world.trace = w.trace ++ ev ∧ spaced .CMD false ev = true) ∧
    (∃ ev, (FlushReadFifo D L w).2.trace = w.trace ++ ev ∧ spaced .HSTS false ev = true) ∧
    (∃ ev, (SdhcReadBlockData D L LengthInBytes Buffer w).2.2.trace = w.trace ++ ev ∧
      stalls ev = []) ∧
    (∃ ev, (SdhcWriteBlockData D L LengthInBytes Buffer w).2.trace = w.trace ++ ev ∧
      stalls ev = []) := by
  refine ⟨?_, awaitCmd_spaced D L w, ?_, SdhcReadBlockData_no_stall D L LengthInBytes Buffer w,
    SdhcWriteBlockData_no_stall D L LengthInBytes Buffer w⟩
  · obtain ⟨ev, htr, hs⟩ := awaitCmd_spaced D L w
    refine ⟨ev, ?_, hs⟩
    simp only [WaitForCmd]
    split_ifs <;> exact htr
  · obtain ⟨ev, htr, hs⟩ := flushLoop_spaced D L USDHC_POLL_RETRY_COUNT w
    refine ⟨ev, ?_, hs⟩
    simp only [FlushReadFifo]
    split_ifs <;> exact htr

/-! ## Round trip through a loopback FIFO -/

theorem loadWord_lt (B : Mem) (i : Nat) : loadWord B i < 4294967296 := by
  simp only [loadWord]
  omega

/-- The bytes of a word that was loaded from one buffer and stored into
another. -/
theorem storeWord_loadWord (B src : Mem) (k a : Nat) (h : 4 * k ≤ a ∧ a < 4 * k + 4) :
    storeWord B k (loadWord src k) a = src a % 256 := by
  simp only [storeWord]
  rw [if_pos h]
  obtain ⟨j, hj, rfl⟩ : ∃ j, j < 4 ∧ a = 4 * k + j := ⟨a - 4 * k, by omega, by omega⟩
  have e : 4 * k + j - 4 * k = j := by omega
  rw [e]
  simp only [loadWord]
  interval_cases j
  · norm_num
    omega
  · norm_num
    omega
  · norm_num
    omega
  · norm_num
    omega

/-- Every poll of the loopback FIFO finds the data flag set. -/
theorem loopbackDev_ready (L : SdHostBits) (hsts : Nat)
    (hflag : hsts % 4294967296 &&& L.SDHOST_HSTS_DATA_FLAG ≠ 0) (q : List Nat) :
    (loopbackDev hsts).sample .HSTS q &&& L.SDHOST_HSTS_DATA_FLAG ≠ 0 := hflag

/-- A block write into the loopback FIFO succeeds and appends the words of the
buffer to the queue, in index order. -/
theorem loopbackDev_writeWords (L : SdHostBits) (hsts : Nat)
    (hflag : hsts % 4294967296 &&& L.SDHOST_HSTS_DATA_FLAG ≠ 0) (B : Mem) (n k : Nat)
    (w : World (List Nat)) :
    (writeWords (loopbackDev hsts) L B n k w).1 = EFI_SUCCESS ∧
    (writeWords (loopbackDev hsts) L B n k w).2.dev =
      w.dev ++ (List.range' k n).map (loadWord B) := by
  induction n generalizing k w with
  | zero => exact ⟨rfl, by simp [writeWords]⟩
  | succ n ih =>
    have hw : writeWordLoop (loopbackDev hsts) L B k USDHC_POLL_RETRY_COUNT 0 w =
        (0, MmioWrite32 (loopbackDev hsts) .DATA (loadWord B k)
          (MmioRead32 (loopbackDev hsts) .HSTS w).2) :=
      writeWordLoop_ready (loopbackDev hsts) L B k 999999 0 w (loopbackDev_ready L hsts hflag _)
    have hstep : writeWords (loopbackDev hsts) L B (n + 1) k w =
        writeWords (loopbackDev hsts) L B n (k + 1)
          (MmioWrite32 (loopbackDev hsts) .DATA (loadWord B k)
            (MmioRead32 (loopbackDev hsts) .HSTS w).2) := by
      rw [writeWords_succ, hw]
      exact if_neg (show ¬ (0 : Nat) = USDHC_POLL_RETRY_COUNT by decide)
    rw [hstep]
    obtain ⟨h1, h2⟩ := ih (k + 1) (MmioWrite32 (loopbackDev hsts) .DATA (loadWord B k)
      (MmioRead32 (loopbackDev hsts) .HSTS w).2)
    refine ⟨h1, ?_⟩
    rw [h2, List.range'_succ, List.map_cons]
    simp [MmioWrite32, MmioRead32, loopbackDev]

/-- A block read from the loopback FIFO whose queue starts with the words of
`src` succeeds, consumes these words and writes their bytes into the buffer. -/
theorem loopbackDev_readWords (L : SdHostBits) (hsts : Nat)
    (hflag : hsts % 4294967296 &&& L.SDHOST_HSTS_DATA_FLAG ≠ 0) (src : Mem) (n k : Nat)
    (B : Mem) (w : World (List Nat)) (rest : List Nat)
    (hq : w.dev = (List.range' k n).map (loadWord src) ++ rest) :
    (readWords (loopbackDev hsts) L n k B w).1 = EFI_SUCCESS ∧
    (readWords (loopbackDev hsts) L n k B w).2.2.dev = rest ∧
    ∀ a, (readWords (loopbackDev hsts) L n k B w).2.1 a =
      if 4 * k ≤ a ∧ a < 4 * (k + n) then src a % 256 else B a := by
  induction n generalizing k B w with
  | zero =>
    refine ⟨rfl, by simpa [readWords] using hq, ?_⟩
    intro a
    rw [if_neg (by omega)]
    rfl
  | succ n ih =>
    have hd : (loopbackDev hsts).sample .DATA (MmioRead32 (loopbackDev hsts) .HSTS w).2.dev
        = loadWord src k := by
      have : (MmioRead32 (loopbackDev hsts) .HSTS w).2.dev = w.dev := rfl
      rw [this, hq, List.range'_succ, List.map_cons]
      simp only [Device.sample, loopbackDev, List.cons_append, List.headD_cons]
      exact Nat.mod_eq_of_lt (loadWord_lt src k)
    have hw : readWordLoop (loopbackDev hsts) L k USDHC_POLL_RETRY_COUNT 0 B w =
        (0, storeWord B k (MmioRead32 (loopbackDev hsts) .DATA
            (MmioRead32 (loopbackDev hsts) .HSTS w).2).1,
          (MmioRead32 (loopbackDev hsts) .DATA (MmioRead32 (loopbackDev hsts) .HSTS w).2).2) :=
      readWordLoop_ready (loopbackDev hsts) L k 999999 0 B w (loopbackDev_ready L hsts hflag _)
    have hstep : readWords (loopbackDev hsts) L (n + 1) k B w =
        readWords (loopbackDev hsts) L n (k + 1) (storeWord B k (loadWord src k))
          (MmioRead32 (loopbackDev hsts) .DATA (MmioRead32 (loopbackDev hsts) .HSTS w).2).2 := by
      rw [readWords_succ, hw, MmioRead32_fst, hd]
      exact if_neg (show ¬ (0 : Nat) = USDHC_POLL_RETRY_COUNT by decide)
    rw [hstep]
    have hq' : (MmioRead32 (loopbackDev hsts) .DATA
        (MmioRead32 (loopbackDev hsts) .HSTS w).2).2.dev =
        (List.range' (k + 1) n).map (loadWord src) ++ rest := by
      have : (MmioRead32 (loopbackDev hsts) .DATA
          (MmioRead32 (loopbackDev hsts) .HSTS w).2).2.dev = w.dev.tail := rfl
      rw [this, hq, List.range'_succ, List.map_cons]
      rfl
    obtain ⟨h1, h2, h3⟩ := ih (k + 1) (storeWord B k (loadWord src k)) _ hq'
    refine ⟨h1, h2, ?_⟩
    intro a
    rw [h3 a]
    by_cases ha : 4 * (k + 1) ≤ a ∧ a < 4 * (k + 1 + n)
    · rw [if_pos ha, if_pos (by omega)]
    · rw [if_neg ha]
      by_cases hb : 4 * k ≤ a ∧ a < 4 * k + 4
      · rw [if_pos (by omega), storeWord_loadWord B src k a hb]
      · rw [if_neg (by omega), storeWord_frame B k _ a (by omega)]

/-- C11: against the loopback FIFO (a write to the data register enqueues the
word, a read dequeues the oldest word, the data flag is set at every poll),
starting with an empty queue, for every buffer of bytes whose length is a
multiple of 512 and whose word count fits the 32-bit `NumWords`,
`SdhcWriteBlockData` followed by `SdhcReadBlockData` of the same length both
return success and the bytes read are the bytes written; the bytes behind the
length are untouched, the queue is empty again, and exactly
`LengthInBytes / 4` words went through the data register each way, in index
order. -/
theorem C11_block_round_trip (L : SdHostBits) (hsts LengthInBytes : Nat) (src dst : Mem)
    (t : List Event)
    (hflag : hsts % 4294967296 &&& L.SDHOST_HSTS_DATA_FLAG ≠ 0)
    (hlen : LengthInBytes % 512 = 0)
    (hfit : LengthInBytes / 4 < 4294967296)
    (hbytes : ∀ a, src a < 256) :
    let wr := SdhcWriteBlockData (loopbackDev hsts) L LengthInBytes src ⟨[], t⟩
    let rd := SdhcReadBlockData (loopbackDev hsts) L LengthInBytes dst wr.2
    wr.1 = EFI_SUCCESS ∧ rd.1 = EFI_SUCCESS ∧
    (∀ a, a < LengthInBytes → rd.2.1 a = src a) ∧
    (∀ a, LengthInBytes ≤ a → rd.2.1 a = dst a) ∧
    rd.2.2.dev = [] ∧
    ∃ evW evR, wr.2.trace = t ++ evW ∧ rd.2.2.trace = wr.2.trace ++ evR ∧
      writesOf .DATA evW = (List.range (LengthInBytes / 4)).map (loadWord src) ∧
      readsOf .DATA evR = (List.range (LengthInBytes / 4)).map (loadWord src) := by
  intro wr rd
  have hN : (LengthInBytes / 4) % 4294967296 = LengthInBytes / 4 := Nat.mod_eq_of_lt hfit
  have h4 : 4 * (LengthInBytes / 4) = LengthInBytes := by omega
  -- the write
  obtain ⟨hw1, hw2⟩ := loopbackDev_writeWords L hsts hflag src (LengthInBytes / 4) 0
    (LedSetOk true ⟨[], t⟩)
  obtain ⟨evw, hwt, _, hwok⟩ := writeWords_spec (loopbackDev hsts) L src (LengthInBytes / 4) 0
    (LedSetOk true ⟨[], t⟩)
  obtain ⟨hww, _⟩ := hwok hw1
  have hwr : wr = ((writeWords (loopbackDev hsts) L src (LengthInBytes / 4) 0
      (LedSetOk true ⟨[], t⟩)).1,
      LedSetOk false (writeWords (loopbackDev hsts) L src (LengthInBytes / 4) 0
        (LedSetOk true ⟨[], t⟩)).2) := by
    simp only [wr, SdhcWriteBlockData, hN]
  have hwdev : wr.2.dev = (List.range' 0 (LengthInBytes / 4)).map (loadWord src) ++ [] := by
    rw [hwr]
    simp only [LedSetOk_dev, hw2, List.nil_append, List.append_nil]
  -- the read
  obtain ⟨hr1, hr2, hr3⟩ := loopbackDev_readWords L hsts hflag src (LengthInBytes / 4) 0 dst
    (LedSetOk true wr.2) [] hwdev
  obtain ⟨evr, hrt, _, hrok⟩ := readWords_spec (loopbackDev hsts) L (LengthInBytes / 4) 0 dst
    (LedSetOk true wr.2)
  obtain ⟨_, hrr, _⟩ := hrok hr1
  have hrd : rd = ((readWords (loopbackDev hsts) L (LengthInBytes / 4) 0 dst
      (LedSetOk true wr.2)).1,
      (readWords (loopbackDev hsts) L (LengthInBytes / 4) 0 dst (LedSetOk true wr.2)).2.1,
      LedSetOk false (readWords (loopbackDev hsts) L (LengthInBytes / 4) 0 dst
        (LedSetOk true wr.2)).2.2) := by
    simp only [rd, SdhcReadBlockData, hN]
  have hbuf : ∀ a, rd.2.1 a =
      if 4 * 0 ≤ a ∧ a < 4 * (0 + LengthInBytes / 4) then src a % 256 else dst a := by
    intro a
    rw [hrd]
    exact hr3 a
  refine ⟨by rw [hwr]; exact hw1, by rw [hrd]; exact hr1, ?_, ?_, ?_, ?_⟩
  · intro a ha
    rw [hbuf a, if_pos (by omega), Nat.mod_eq_of_lt (hbytes a)]
  · intro a ha
    rw [hbuf a, if_neg (by omega)]
  · rw [hrd]
    exact hr2
  · refine ⟨[Event.led true] ++ evw ++ [Event.led false],
      [Event.led true] ++ evr ++ [Event.led false], ?_, ?_, ?_, ?_⟩
    · rw [hwr]
      simp only [LedSetOk_trace, hwt, List.append_assoc]
    · rw [hrd]
      simp only [LedSetOk_trace, hrt, List.append_assoc]
    · rw [writesOf_append, writesOf_append, hww, List.range_eq_range']
      simp [writesOf]
    · rw [readsOf_append, readsOf_append, hrr, List.range_eq_range']
      have hmap : (List.range' 0 (LengthInBytes / 4)).map (loadWord (readWords
          (loopbackDev hsts) L (LengthInBytes / 4) 0 dst (LedSetOk true wr.2)).2.1) =
          (List.range' 0 (LengthInBytes / 4)).map (loadWord src) := by
        apply List.map_congr_left
        intro j hj
        have hj' : j < LengthInBytes / 4 := by
          have := List.mem_range'_1.mp hj
          omega
        simp only [loadWord]
        rw [hr3, hr3, hr3, hr3, if_pos (by omega), if_pos (by omega), if_pos (by omega),
          if_pos (by omega)]
        simp only [Nat.mod_mod]
      rw [hmap]
      simp [readsOf]

/-- C11, instance: a 512-byte buffer of sevens through the loopback FIFO of the
sample bit assignment. -/
theorem C11_block_round_trip_witness :
    (1 % 4294967296 &&& sampleBits.SDHOST_HSTS_DATA_FLAG ≠ 0 ∧ 512 % 512 = 0 ∧
      512 / 4 < 4294967296 ∧ ∀ a, sevens a < 256) ∧
    (SdhcWriteBlockData (loopbackDev 1) sampleBits 512 sevens ⟨[], []⟩).1 = EFI_SUCCESS ∧
    (SdhcReadBlockData (loopbackDev 1) sampleBits 512 (fun _ => 0)
      (SdhcWriteBlockData (loopbackDev 1) sampleBits 512 sevens ⟨[], []⟩).2).1 = EFI_SUCCESS ∧
    ∀ a, a < 512 →
      (SdhcReadBlockData (loopbackDev 1) sampleBits 512 (fun _ => 0)
        (SdhcWriteBlockData (loopbackDev 1) sampleBits 512 sevens ⟨[], []⟩).2).2.1 a
        = sevens a :=
  ⟨⟨by decide, by decide, by decide, fun _ => (by decide : (7 : Nat) < 256)⟩,
    (C11_block_round_trip sampleBits 1 512 sevens (fun _ => 0) []
      (by decide) (by decide) (by decide) (fun _ => (by decide : (7 : Nat) < 256))).1,
    (C11_block_round_trip sampleBits 1 512 sevens (fun _ => 0) []
      (by decide) (by decide) (by decide) (fun _ => (by decide : (7 : Nat) < 256))).2.1,
    (C11_block_round_trip sampleBits 1 512 sevens (fun _ => 0) []
      (by decide) (by decide) (by decide) (fun _ => (by decide : (7 : Nat) < 256))).2.2.1⟩

/-! ## Sample adder -/

/-- C21, the code at the failing input: `BuggyAdder (1, 1)` is `1 | 1 = 1`
and not `1 + 1 = 2`, a sum that is far from overflowing, so the check of
`TestAdderTricky` fails; `BuggyAdder (1, 2)` is `3` and the check of
`TestAdderTrivial` holds, the two operands having no bit in common. -/
theorem C21_adder_ors :
    BuggyAdder 1 1 = 1 ∧ BuggyAdder 1 1 ≠ 1 + 1 ∧ TestAdderTricky = false ∧
    BuggyAdder 1 2 = 1 + 2 ∧ TestAdderTrivial = true := by
  decide

end SdhcDxe
